import Mathlib

/-!
# Verification of the schema validation / sanitization / migration engine

Shallow embedding of the schema-driven validation and migration engine of the
`ai-dashboard-API` repository:

* `src/schemas/*.schema.js` — the schema registry data;
* `src/utils/validator.js` (`validateData`, `validateObjectAgainstSchema`,
  `sanitizeData`);
* `src/utils/migration.js` (`applyDefaults`, `migrateDocument`,
  `migrateCollection`, `getMigrationStatus`);
* `scripts/reset-analytics.js` (the paged bulk-deletion loop).

JavaScript values are modelled by the inductive `Value` (with explicit
`undefined` and `null`); JavaScript objects by ordered association lists
(`Doc`), matching JS own-key insertion order; the Firestore store by a map
from collection names to ordered lists of `(docId, document)` pairs.
Firestore I/O is modelled by explicit state passing, and the single
collection-level query a bulk operation issues is reified as the list of
fetched documents together with the query's `limit` setting.
-/

/-- A JavaScript runtime value, as far as the engine inspects values:
`undefined`, `null`, strings, numbers (the schemas and the engine only ever
compare and default integral numbers, so `Int` suffices), booleans, arrays
and plain objects (ordered own-key/value lists). -/
inductive Value where
  | vUndef : Value
  | vNull : Value
  | vStr : String → Value
  | vNum : Int → Value
  | vBool : Bool → Value
  | vArr : List Value → Value
  | vObj : List (String × Value) → Value
deriving Repr

mutual
/-- Structural (deep) equality test on values; used to model `!==` where the
engine compares a freshly written field against the stored one (the two can
only both be non-primitive when they are the same reference, so reference
inequality and structural inequality agree at every comparison the engine
performs). -/
def beqV : Value → Value → Bool
  | .vUndef, .vUndef => true
  | .vNull, .vNull => true
  | .vStr a, .vStr b => a == b
  | .vNum a, .vNum b => a == b
  | .vBool a, .vBool b => a == b
  | .vArr a, .vArr b => beqVL a b
  | .vObj a, .vObj b => beqVO a b
  | _, _ => false

/-- Structural equality of value lists. -/
def beqVL : List Value → List Value → Bool
  | [], [] => true
  | x :: xs, y :: ys => beqV x y && beqVL xs ys
  | _, _ => false

/-- Structural equality of key/value entry lists. -/
def beqVO : List (String × Value) → List (String × Value) → Bool
  | [], [] => true
  | (k, x) :: xs, (l, y) :: ys => k == l && beqV x y && beqVO xs ys
  | _, _ => false
end

instance : BEq Value := ⟨beqV⟩

/-- A JavaScript object: ordered association list of own keys.  JS objects
never hold duplicate keys; operations below preserve that invariant. -/
abbrev Doc := List (String × Value)

/-- First-match association lookup (JS property read on an own key). -/
def lookupD : Doc → String → Option Value
  | [], _ => none
  | (k, v) :: rest, n => if k = n then some v else lookupD rest n

/-- `Object.prototype.hasOwnProperty.call(d, n)`. -/
def hasOwn (d : Doc) (n : String) : Bool :=
  d.any (fun p => p.1 = n)

/-- A JS property read `d[n]`: an absent key reads as `undefined`. -/
def jsIndex (d : Doc) (n : String) : Value :=
  (lookupD d n).getD Value.vUndef

/-- JS property assignment `d[n] = v`: replaces the value of an existing key
in place, appends a new key at the end. -/
def setVal : Doc → String → Value → Doc
  | [], n, v => [(n, v)]
  | (k, w) :: rest, n, v =>
      if k = n then (k, v) :: rest else (k, w) :: setVal rest n v

/-- JS `delete d[n]` (keys are unique in a JS object, so removing every
match equals removing the one match). -/
def delKey : Doc → String → Doc
  | [], _ => []
  | (k, v) :: rest, n => if k = n then delKey rest n else (k, v) :: delKey rest n

/-- `v === undefined || v === null`. -/
def isMissing : Value → Bool
  | .vUndef => true
  | .vNull => true
  | _ => false

/-- `v === undefined || v === null || v === ''` (the validator's emptiness
test on a candidate value for a required field). -/
def isMissingOrEmpty : Value → Bool
  | .vUndef => true
  | .vNull => true
  | .vStr s => s = ""
  | _ => false

/-- JS truthiness of a value (`NaN` cannot arise: numbers are integral). -/
def jsTruthy : Value → Bool
  | .vUndef => false
  | .vNull => false
  | .vStr s => s ≠ ""
  | .vNum n => n ≠ 0
  | .vBool b => b
  | .vArr _ => true
  | .vObj _ => true

/-- JS `a || b` on values: `b` when `a` is falsy. -/
def jsOrVal (a b : Value) : Value :=
  if jsTruthy a then a else b

mutual
/-- JS string coercion `String(v)` as used when a value becomes an object
key (`versions[version]` in `getMigrationStatus`). -/
def jsValueToString : Value → String
  | .vUndef => "undefined"
  | .vNull => "null"
  | .vStr s => s
  | .vNum n => toString n
  | .vBool b => if b then "true" else "false"
  | .vArr xs => String.intercalate "," (jsArrParts xs)
  | .vObj _ => "[object Object]"

/-- `Array.prototype.toString` renders `null`/`undefined` elements as
empty strings and joins with commas. -/
def jsArrParts : List Value → List String
  | [] => []
  | .vUndef :: rest => "" :: jsArrParts rest
  | .vNull :: rest => "" :: jsArrParts rest
  | v :: rest => jsValueToString v :: jsArrParts rest
end

/-! ## Schema data model (`src/schemas/*.schema.js`)

Presentation-only attributes (`label`, `description`, `suggestions`,
`fileTypes`, `maxSize`) are never read by the validator, sanitizer or
migration engine and are omitted from the embedding. -/

/-- The `validation` constraint object of a field descriptor. -/
structure ValidationSpec where
  minLength : Option Nat := none
  maxLength : Option Nat := none
  pattern : Option String := none
  min : Option Int := none
  max : Option Int := none
  minItems : Option Nat := none
  maxItems : Option Nat := none
deriving Repr, DecidableEq

/-- A field descriptor of a nested field map (`field.schema` entries), as read
by `validateObjectAgainstSchema`: `type`, `required`, and bare `min`/`max`
bounds.  `default`, `options` and `validation` occur in the source data but
are never read by the sub-validator; they are carried for fidelity. -/
structure SubField where
  type : String
  required : Bool := false
  min : Option Int := none
  max : Option Int := none
  default : Option Value := none
  options : List String := []
  validation : Option ValidationSpec := none
deriving Repr

/-- A top-level field descriptor.  `editable` is `some false` exactly when the
source writes `editable: false`; an absent flag is `none` (JS `undefined`).
`options` is the list of the declared option `value`s (labels are
presentation-only).  `schema` is the nested field map for array-of-object and
nested-object fields, `none` when absent. -/
structure FieldDef where
  name : String
  type : String
  required : Bool := false
  generated : Bool := false
  editable : Option Bool := none
  default : Option Value := none
  validation : Option ValidationSpec := none
  itemType : Option String := none
  options : List String := []
  schema : Option (List (String × SubField)) := none
deriving Repr

/-- A presentation section grouping fields. -/
structure SchemaSection where
  name : String
  fields : List FieldDef
deriving Repr

/-- One schema definition (`{ type, version, collection, sections, fields?,
listFields? }`).  An absent `fields`/`listFields` array behaves identically
to an empty one in every consumer, so both are plain lists. -/
structure SchemaDef where
  type : String
  version : String
  collection : String
  sections : List SchemaSection := []
  fields : List FieldDef := []
  listFields : List FieldDef := []
deriving Repr

/-- `character.schema.js`. -/
def characterSchema : SchemaDef :=
  { type := "character"
    version := "1.0"
    collection := "characters"
    sections :=
      [ { name := "background"
          fields :=
            [ { name := "image", type := "file" }
            , { name := "name", type := "string", required := true
              , validation := some { minLength := some 1, maxLength := some 200 } }
            , { name := "age", type := "number"
              , validation := some { min := some 0, max := some 200 } }
            , { name := "occupation", type := "string"
              , validation := some { maxLength := some 200 } }
            , { name := "gender", type := "string"
              , validation := some { maxLength := some 100 } }
            , { name := "background", type := "text"
              , validation := some { maxLength := some 5000 } } ] }
      , { name := "behaviour"
          fields :=
            [ { name := "ambitions", type := "text"
              , validation := some { maxLength := some 2000 } }
            , { name := "generalBehaviour", type := "text"
              , validation := some { maxLength := some 2000 } } ] }
      , { name := "personality"
          fields :=
            [ { name := "personalityPreset", type := "select" }
            , { name := "personalitySliders", type := "object"
              , schema := some
                  [ ("introvertExtrovert",
                     { type := "number", min := some 0, max := some 100
                     , default := some (Value.vNum 50) })
                  , ("criticalCompassionate",
                     { type := "number", min := some 0, max := some 100
                     , default := some (Value.vNum 50) })
                  , ("spontaneousOrganized",
                     { type := "number", min := some 0, max := some 100
                     , default := some (Value.vNum 50) })
                  , ("sensitiveCalm",
                     { type := "number", min := some 0, max := some 100
                     , default := some (Value.vNum 50) })
                  , ("conventionalImaginative",
                     { type := "number", min := some 0, max := some 100
                     , default := some (Value.vNum 50) }) ] }
            , { name := "personalityTraits", type := "text"
              , validation := some { maxLength := some 2000 } } ] }
      , { name := "languageAndSpeech"
          fields :=
            [ { name := "voiceId", type := "select", required := true }
            , { name := "speakingStylePreset", type := "select" }
            , { name := "speakingStyleSliders", type := "object"
              , schema := some
                  [ ("bluntEmpathic",
                     { type := "number", min := some 0, max := some 100
                     , default := some (Value.vNum 50) })
                  , ("formalCasual",
                     { type := "number", min := some 0, max := some 100
                     , default := some (Value.vNum 50) })
                  , ("elaborateConcise",
                     { type := "number", min := some 0, max := some 100
                     , default := some (Value.vNum 50) })
                  , ("seriousPlayful",
                     { type := "number", min := some 0, max := some 100
                     , default := some (Value.vNum 50) })
                  , ("passiveAssertive",
                     { type := "number", min := some 0, max := some 100
                     , default := some (Value.vNum 50) }) ] }
            , { name := "speakingStyleNotes", type := "text"
              , validation := some { maxLength := some 2000 } } ] }
      , { name := "characterBuilder", fields := [] }
      , { name := "knowledgeBank"
          fields :=
            [ { name := "knowledge", type := "text"
              , validation := some { maxLength := some 10000 } }
            , { name := "knowledgeFiles", type := "array"
              , itemType := some "file" } ] } ]
    listFields :=
      [ { name := "id", type := "string", required := true, generated := true
        , editable := some false }
      , { name := "name", type := "string", required := true }
      , { name := "description", type := "text"
        , validation := some { maxLength := some 500 } }
      , { name := "voiceId", type := "string", required := true }
      , { name := "status", type := "select", required := true
        , default := some (Value.vStr "draft")
        , options := ["draft", "active", "archived"] }
      , { name := "companyId", type := "string", required := true
        , generated := true, editable := some false }
      , { name := "createdBy", type := "string", required := true
        , generated := true, editable := some false }
      , { name := "createdAt", type := "timestamp", required := true
        , generated := true, editable := some false }
      , { name := "updatedAt", type := "timestamp", required := true
        , generated := true, editable := some false }
      , { name := "updatedBy", type := "string", generated := true
        , editable := some false } ] }

/-- `dialogue.schema.js`. -/
def dialogueSchema : SchemaDef :=
  { type := "dialogue"
    version := "1.0"
    collection := "dialogues"
    sections :=
      [ { name := "purpose"
          fields :=
            [ { name := "name", type := "string", required := true
              , validation := some { minLength := some 1, maxLength := some 200 } }
            , { name := "description", type := "text"
              , validation := some { maxLength := some 1000 } }
            , { name := "purposePreset", type := "select"
              , options := ["correct_feedback", "incorrect_feedback",
                  "descriptive_feedback", "evaluative_feedback",
                  "suggestive_feedback", "incomplete_feedback",
                  "right_wrong_feedback", "percentage_feedback"] }
            , { name := "dialogueContext", type := "text"
              , validation := some { maxLength := some 3000 } }
            , { name := "dialoguePurpose", type := "text"
              , validation := some { maxLength := some 3000 } } ] }
      , { name := "characterRoles"
          fields :=
            [ { name := "roles", type := "array", itemType := some "object"
              , schema := some
                  [ ("roleId", { type := "string", required := true })
                  , ("rolePreset",
                     { type := "select"
                     , options := ["protagonist", "antagonist", "guide",
                         "mentor", "observer", "participant"] })
                  , ("roleDescription",
                     { type := "text"
                     , validation := some { maxLength := some 1000 } }) ] } ] }
      , { name := "feedback"
          fields :=
            [ { name := "feedbackDescription", type := "text"
              , validation := some { maxLength := some 2000 } }
            , { name := "feedbackStyle", type := "select"
              , options := ["immediate", "delayed", "progressive", "summary"] } ] } ]
    listFields :=
      [ { name := "id", type := "string", required := true, generated := true
        , editable := some false }
      , { name := "name", type := "string", required := true }
      , { name := "description", type := "text" }
      , { name := "companyId", type := "string", required := true
        , generated := true, editable := some false }
      , { name := "createdBy", type := "string", required := true
        , generated := true, editable := some false }
      , { name := "createdAt", type := "timestamp", required := true
        , generated := true, editable := some false }
      , { name := "updatedAt", type := "timestamp", required := true
        , generated := true, editable := some false }
      , { name := "updatedBy", type := "string", generated := true
        , editable := some false } ] }

/-- `environment.schema.js`. -/
def environmentSchema : SchemaDef :=
  { type := "environment"
    version := "1.0"
    collection := "environments"
    sections :=
      [ { name := "generalInfo"
          fields :=
            [ { name := "image", type := "file" }
            , { name := "name", type := "string", required := true
              , validation := some { minLength := some 1, maxLength := some 200 } }
            , { name := "referenceId", type := "string", required := true
              , validation := some
                  { minLength := some 1, maxLength := some 100
                    , pattern := some "^[a-zA-Z0-9_-]+$" } }
            , { name := "season", type := "string"
              , validation := some { maxLength := some 100 } }
            , { name := "environmentType", type := "select"
              , options := ["indoor", "outdoor", "virtual", "mixed", "urban",
                  "rural", "natural", "industrial", "residential", "commercial"] }
            , { name := "description", type := "text"
              , validation := some { maxLength := some 3000 } } ] } ]
    listFields :=
      [ { name := "id", type := "string", required := true, generated := true
        , editable := some false }
      , { name := "name", type := "string", required := true }
      , { name := "description", type := "text" }
      , { name := "companyId", type := "string", required := true
        , generated := true, editable := some false }
      , { name := "createdBy", type := "string", required := true
        , generated := true, editable := some false }
      , { name := "createdAt", type := "timestamp", required := true
        , generated := true, editable := some false }
      , { name := "updatedAt", type := "timestamp", required := true
        , generated := true, editable := some false }
      , { name := "updatedBy", type := "string", generated := true
        , editable := some false } ] }

/-- Modelled from the spec: `scenario.schema.js` is part of the repository
(registered under type `scenario` in `src/schemas/index.js`) but its source
is not available here.  Per the spec and the API documentation, a scenario
has a required `name`, optional `description`, a `status` select
(draft/published/archived), `dialogueId`/`environmentId` references, a
`characterRoles` array of objects with required nested `roleId`, and the
standard generated bookkeeping list fields shared by every schema.  No claim
is decided by this definition; it only completes the registry. -/
def scenarioSchema : SchemaDef :=
  { type := "scenario"
    version := "1.0"
    collection := "scenarios"
    sections :=
      [ { name := "general"
          fields :=
            [ { name := "name", type := "string", required := true
              , validation := some { minLength := some 1, maxLength := some 200 } }
            , { name := "description", type := "text"
              , validation := some { maxLength := some 1000 } }
            , { name := "status", type := "select"
              , options := ["draft", "published", "archived"] }
            , { name := "dialogueId", type := "reference" }
            , { name := "environmentId", type := "reference" }
            , { name := "characterRoles", type := "array"
              , itemType := some "object"
              , schema := some
                  [ ("roleId", { type := "string", required := true })
                  , ("characterId", { type := "reference" }) ] } ] } ]
    listFields :=
      [ { name := "id", type := "string", required := true, generated := true
        , editable := some false }
      , { name := "name", type := "string", required := true }
      , { name := "description", type := "text" }
      , { name := "companyId", type := "string", required := true
        , generated := true, editable := some false }
      , { name := "createdBy", type := "string", required := true
        , generated := true, editable := some false }
      , { name := "createdAt", type := "timestamp", required := true
        , generated := true, editable := some false }
      , { name := "updatedAt", type := "timestamp", required := true
        , generated := true, editable := some false }
      , { name := "updatedBy", type := "string", generated := true
        , editable := some false } ] }

/-- A schema registry: ordered name/definition pairs (`src/schemas/index.js`
builds a plain object literal). -/
abbrev Registry := List (String × SchemaDef)

/-- The registry of `src/schemas/index.js`. -/
def theRegistry : Registry :=
  [ ("scenario", scenarioSchema)
  , ("character", characterSchema)
  , ("dialogue", dialogueSchema)
  , ("environment", environmentSchema) ]

/-- Registry lookup (`schemas[type] || null`). -/
def getSchemaIn : Registry → String → Option SchemaDef
  | [], _ => none
  | (n, s) :: rest, t => if n = t then some s else getSchemaIn rest t

/-- `getSchema(type)` against the process registry. -/
def getSchema (t : String) : Option SchemaDef :=
  getSchemaIn theRegistry t

/-! ## Validator (`src/utils/validator.js`) -/

/-- Flatten a schema into one field list: all section fields in order, then
top-level `fields`, then `listFields` (both the validator and the migration
engine build the list this way). -/
def allFields (s : SchemaDef) : List FieldDef :=
  (s.sections.map SchemaSection.fields).flatten ++ s.fields ++ s.listFields

/-- First-occurrence-wins de-duplication by field name (the validator's
`Map`-based loop: a field is kept iff its name has not been seen yet). -/
def dedupGo (seen : List String) : List FieldDef → List FieldDef
  | [] => []
  | f :: rest =>
      if seen.contains f.name then dedupGo seen rest
      else f :: dedupGo (f.name :: seen) rest

/-- `allFields` de-duplicated by name, first occurrence winning. -/
def dedupByName (fs : List FieldDef) : List FieldDef :=
  dedupGo [] fs

/-- The kind of a validation error message.  Each constructor corresponds to
one `errors.push(\`...\`)` site of the validator; the full JS message is the
field path interpolated into the kind's template (see `renderError`). -/
inductive ErrKind where
  | required : ErrKind
  | requiredNoEmpty : ErrKind
  | mustBeString : ErrKind
  | minLength : Nat → ErrKind
  | maxLength : Nat → ErrKind
  | patternMismatch : ErrKind
  | mustBeNumber : ErrKind
  | numMin : Int → ErrKind
  | numMax : Int → ErrKind
  | mustBeBoolean : ErrKind
  | mustBeArray : ErrKind
  | minItems : Nat → ErrKind
  | maxItems : Nat → ErrKind
  | mustBeObject : ErrKind
  | mustBeRef : ErrKind
  | notOneOf : List String → ErrKind
  | unknownType : String → ErrKind
deriving Repr, DecidableEq

/-- One pushed validation error: the (possibly path-qualified) field name and
the message kind.  The `unknownType` error carries no field (`field = ""`). -/
structure VError where
  field : String
  kind : ErrKind
deriving Repr, DecidableEq

/-- The literal JS message string of an error (documentation of the
correspondence between `ErrKind` and the source's template strings). -/
def renderError (e : VError) : String :=
  match e.kind with
  | .required => "Field '" ++ e.field ++ "' is required"
  | .requiredNoEmpty =>
      "Field '" ++ e.field ++ "' is required and cannot be set to empty"
  | .mustBeString => "Field '" ++ e.field ++ "' must be a string"
  | .minLength n =>
      "Field '" ++ e.field ++ "' must be at least " ++ toString n ++ " characters"
  | .maxLength n =>
      "Field '" ++ e.field ++ "' must be at most " ++ toString n ++ " characters"
  | .patternMismatch => "Field '" ++ e.field ++ "' does not match required pattern"
  | .mustBeNumber => "Field '" ++ e.field ++ "' must be a number"
  | .numMin n => "Field '" ++ e.field ++ "' must be at least " ++ toString n
  | .numMax n => "Field '" ++ e.field ++ "' must be at most " ++ toString n
  | .mustBeBoolean => "Field '" ++ e.field ++ "' must be a boolean"
  | .mustBeArray => "Field '" ++ e.field ++ "' must be an array"
  | .minItems n =>
      "Field '" ++ e.field ++ "' must have at least " ++ toString n ++ " items"
  | .maxItems n =>
      "Field '" ++ e.field ++ "' must have at most " ++ toString n ++ " items"
  | .mustBeObject => "Field '" ++ e.field ++ "' must be an object"
  | .mustBeRef => "Field '" ++ e.field ++ "' must be a string (reference ID)"
  | .notOneOf vs =>
      "Field '" ++ e.field ++ "' must be one of: " ++ String.intercalate ", " vs
  | .unknownType t => "Unknown schema type: " ++ t

/-- A stale-schema-version warning (`existingData.schemaVersion` and the
registry's current version, interpolated into the JS warning string). -/
structure VWarn where
  docVersion : Value
  current : String
deriving Repr

/-- The validator's result object. -/
structure VResult where
  valid : Bool
  errors : List VError
  warnings : List VWarn
deriving Repr

/-- Models `new RegExp(pattern).test(value)` for the one pattern literal that
occurs in this repository's schemas (`^[a-zA-Z0-9_-]+$`, on
`environment.referenceId`); no other pattern string reaches the check. -/
def regexTest (p : String) (s : String) : Bool :=
  if p = "^[a-zA-Z0-9_-]+$" then
    s ≠ "" && s.toList.all (fun c => c.isAlphanum || c = '-' || c = '_')
  else true

/-- A JS property read `v[k]` on an arbitrary value: own-key lookup on plain
objects, `undefined` on other non-nullish values.  (On `null`/`undefined`
the JS read throws; the validator only performs this read on array items,
and no claim evaluates it on a nullish item.) -/
def objIndex (v : Value) (k : String) : Value :=
  match v with
  | .vObj es => jsIndex es k
  | _ => Value.vUndef

/-- The message kinds one nested field descriptor produces for a candidate
value (the body of the `Object.keys(schema).forEach` loop of
`validateObjectAgainstSchema`): the required check, the nullish skip, and
the `switch` over the four primitive kinds. -/
def subFieldKinds (fd : SubField) (value : Value) : List ErrKind :=
  if fd.required && isMissingOrEmpty value then [.required]
  else if isMissing value then []
  else
    match fd.type with
    | "string" =>
        match value with
        | .vStr _ => []
        | _ => [.mustBeString]
    | "number" =>
        match value with
        | .vNum n =>
            (match fd.min with
             | some m => if n < m then [.numMin m] else []
             | none => []) ++
            (match fd.max with
             | some m => if n > m then [.numMax m] else []
             | none => [])
        | _ => [.mustBeNumber]
    | "boolean" =>
        match value with
        | .vBool _ => []
        | _ => [.mustBeBoolean]
    | "reference" =>
        match value with
        | .vStr _ => []
        | _ => [.mustBeRef]
    | _ => []

/-- `validateObjectAgainstSchema(obj, schema, fieldPrefix)`: walk the nested
field map in declaration order, path-qualify every produced message with
`pre.key` (bare `key` when the path is empty). -/
def validateObjectAgainstSchema
    (obj : Value) (sch : List (String × SubField)) (pre : String) :
    List VError :=
  sch.flatMap (fun e =>
    (subFieldKinds e.2 (objIndex obj e.1)).map
      (fun k => ⟨if pre ≠ "" then pre ++ "." ++ e.1 else e.1, k⟩))

/-- The non-nested message kinds of the validator's `switch` on
`field.type` (each produced error carries the plain field name). -/
def typeCheckKinds (f : FieldDef) (value : Value) : List ErrKind :=
  match f.type with
  | "string" | "text" =>
      match value with
      | .vStr s =>
          match f.validation with
          | none => []
          | some v =>
              (match v.minLength with
               | some m => if m ≠ 0 && s.length < m then [.minLength m] else []
               | none => []) ++
              (match v.maxLength with
               | some m => if m ≠ 0 && s.length > m then [.maxLength m] else []
               | none => []) ++
              (match v.pattern with
               | some p => if p ≠ "" && !regexTest p s then [.patternMismatch] else []
               | none => [])
      | _ => [.mustBeString]
  | "number" =>
      match value with
      | .vNum n =>
          match f.validation with
          | none => []
          | some v =>
              (match v.min with
               | some m => if n < m then [.numMin m] else []
               | none => []) ++
              (match v.max with
               | some m => if n > m then [.numMax m] else []
               | none => [])
      | _ => [.mustBeNumber]
  | "boolean" =>
      match value with
      | .vBool _ => []
      | _ => [.mustBeBoolean]
  | "array" =>
      match value with
      | .vArr items =>
          match f.validation with
          | none => []
          | some v =>
              (match v.minItems with
               | some m => if m ≠ 0 && items.length < m then [.minItems m] else []
               | none => []) ++
              (match v.maxItems with
               | some m => if m ≠ 0 && items.length > m then [.maxItems m] else []
               | none => [])
      | _ => [.mustBeArray]
  | "object" =>
      match value with
      | .vObj _ => []
      | _ => [.mustBeObject]
  | "reference" =>
      match value with
      | .vStr _ => []
      | _ => [.mustBeRef]
  | "file" => []
  | "timestamp" => []
  | "select" =>
      if f.options.isEmpty then []
      else
        match value with
        | .vStr s => if f.options.contains s then [] else [.notOneOf f.options]
        | _ => [.notOneOf f.options]
  | _ => []

/-- The recursive part of the `switch`: item-wise validation of an
array-of-objects (path `name[i]`) and validation of a nested object (path
`name`), exactly in the guarded positions of the source. -/
def typeCheckNested (f : FieldDef) (value : Value) : List VError :=
  match f.type with
  | "array" =>
      match value, f.itemType, f.schema with
      | .vArr items, some "object", some sch =>
          items.enum.flatMap (fun p =>
            validateObjectAgainstSchema p.2 sch
              (f.name ++ "[" ++ toString p.1 ++ "]"))
      | _, _, _ => []
  | "object" =>
      match value, f.schema with
      | .vObj es, some sch => validateObjectAgainstSchema (Value.vObj es) sch f.name
      | _, _ => []
  | _ => []

/-- The kind-dispatch part of the validator's per-field loop: the plain
errors of the `switch` (field-named), then the recursively produced
path-qualified errors — the order in which the source pushes them. -/
def typeCheck (f : FieldDef) (value : Value) : List VError :=
  (typeCheckKinds f value).map (fun k => (⟨f.name, k⟩ : VError)) ++
    typeCheckNested f value

/-- The validator's per-field loop body: skip `generated && editable ===
false` fields; enforce required-ness (strictly at creation, only for
explicitly supplied keys at update, both branches ending the iteration);
skip nullish values; otherwise dispatch on the field kind. -/
def fieldCheck (data : Doc) (isUpdate : Bool) (f : FieldDef) : List VError :=
  if f.generated && f.editable == some false then []
  else if f.required && isMissingOrEmpty (jsIndex data f.name) then
    if isUpdate then
      if hasOwn data f.name then [⟨f.name, .requiredNoEmpty⟩] else []
    else
      [⟨f.name, .required⟩]
  else if isMissing (jsIndex data f.name) then []
  else typeCheck f (jsIndex data f.name)

/-- `validateData(type, data, isUpdate, existingData)`. -/
def validateData
    (t : String) (data : Doc) (isUpdate : Bool := false)
    (existingData : Option Doc := none) : VResult :=
  match getSchema t with
  | none => { valid := false, errors := [⟨"", .unknownType t⟩], warnings := [] }
  | some schema =>
      let fields := dedupByName (allFields schema)
      let warnings : List VWarn :=
        match isUpdate, existingData with
        | true, some ed =>
            let sv := jsIndex ed "schemaVersion"
            if jsTruthy sv && !beqV sv (Value.vStr schema.version) then
              [⟨sv, schema.version⟩]
            else []
        | _, _ => []
      let errors := fields.flatMap (fieldCheck data isUpdate)
      { valid := errors.isEmpty, errors := errors, warnings := warnings }

/-! ## Sanitizer (`sanitizeData` in `src/utils/validator.js`) -/

/-- `sanitizeData(type, data)`: for an unknown type return the payload
unchanged; otherwise delete from a copy of the payload every field whose
descriptor has `editable === false` or a truthy `generated`. -/
def sanitizeData (t : String) (data : Doc) : Doc :=
  match getSchema t with
  | none => data
  | some schema =>
      let fields := dedupByName (allFields schema)
      fields.foldl
        (fun acc f =>
          if f.editable == some false || f.generated then delKey acc f.name else acc)
        data

/-! ## Migration engine (`src/utils/migration.js`) -/

/-- The zero placeholder written for a required-but-missing field, by kind
(the `switch (field.type)` of `applyDefaults`; kinds outside the six cases
fall through and write nothing). -/
def placeholderFor : String → Option Value
  | "string" => some (Value.vStr "")
  | "text" => some (Value.vStr "")
  | "number" => some (Value.vNum 0)
  | "boolean" => some (Value.vBool false)
  | "array" => some (Value.vArr [])
  | "object" => some (Value.vObj [])
  | _ => none

/-- One iteration of the `applyDefaults` field loop, acting on the
accumulated `(updated, modified)` state.  Both missing-ness tests read the
original `data` object, exactly as in the source. -/
def adStep (data : Doc) (acc : Doc × Bool) (f : FieldDef) : Doc × Bool :=
  let v := jsIndex data f.name
  let acc1 :=
    match f.default with
    | some dv => if isMissing v then (setVal acc.1 f.name dv, true) else acc
    | none => acc
  if f.required && isMissing v then
    (match placeholderFor f.type with
     | some p => setVal acc1.1 f.name p
     | none => acc1.1,
     true)
  else acc1

/-- `applyDefaults(data, schema) -> { updated, modified }`. -/
def applyDefaults (data : Doc) (schema : SchemaDef) : Doc × Bool :=
  (allFields schema).foldl (adStep data) (data, false)

/-- The document store: each collection name maps to its ordered list of
`(document id, document)` pairs. -/
abbrev Store := String → List (String × Doc)

/-- Document lookup within one collection. -/
def lookupDoc : List (String × Doc) → String → Option Doc
  | [], _ => none
  | (k, d) :: rest, i => if k = i then some d else lookupDoc rest i

/-- Firestore `docRef.update(obj)`: merge `obj` into the stored document,
field by field (existing keys overwritten in place, new keys appended). -/
def jsUpdate (doc : Doc) (upd : Doc) : Doc :=
  upd.foldl (fun acc e => setVal acc e.1 e.2) doc

/-- Apply a `docRef.update` to one document of one collection of the store. -/
def storeUpdate (store : Store) (col id : String) (upd : Doc) : Store :=
  fun c =>
    if c = col then
      (store col).map (fun e => if e.1 = id then (e.1, jsUpdate e.2 upd) else e)
    else store c

/-- A single-document migration report.  Fields mirror the JS result object
(`fromVersion`/`toVersion` stand for the JS keys `from`/`to`); absent keys
are `none`. -/
structure MigReport where
  success : Bool
  error : Option String := none
  message : Option String := none
  version : Option Value := none
  fromVersion : Option Value := none
  toVersion : Option String := none
  changes : Option (List String) := none
  dryRun : Option Bool := none
deriving Repr

/-- `migrateDocument(collectionName, docId, dryRun)`.  The registry is passed
explicitly (the source reads it through the module-level `getSchema`
import); `now` stands for `new Date().toISOString()`. -/
def migrateDocument (reg : Registry) (store : Store) (collectionName docId : String)
    (dryRun : Bool) (now : String) : Store × MigReport :=
  match lookupDoc (store collectionName) docId with
  | none => (store, { success := false, error := some "Document not found" })
  | some data =>
      match getSchemaIn reg (collectionName.dropRight 1) with
      | none => (store, { success := false, error := some "Schema not found" })
      | some schema =>
          let currentVersion := jsOrVal (jsIndex data "schemaVersion") (Value.vStr "1.0")
          let targetVersion := schema.version
          if beqV currentVersion (Value.vStr targetVersion) then
            (store,
             { success := true, message := some "Already at latest version"
               , version := some currentVersion })
          else
            let ad := applyDefaults data schema
            if !ad.2 then
              let store1 :=
                if !dryRun then
                  storeUpdate store collectionName docId
                    [("schemaVersion", Value.vStr targetVersion),
                     ("updatedAt", Value.vStr now)]
                else store
              (store1,
               { success := true
                 , message := some "Version updated (no data changes needed)"
                 , fromVersion := some currentVersion
                 , toVersion := some targetVersion
                 , dryRun := some dryRun })
            else
              let store1 :=
                if !dryRun then
                  storeUpdate store collectionName docId
                    (setVal (setVal ad.1 "schemaVersion" (Value.vStr targetVersion))
                      "updatedAt" (Value.vStr now))
                else store
              (store1,
               { success := true
                 , message := some "Document migrated successfully"
                 , fromVersion := some currentVersion
                 , toVersion := some targetVersion
                 , changes := some ((ad.1.map Prod.fst).filter
                     (fun key => !beqV (jsIndex ad.1 key) (jsIndex data key)))
                 , dryRun := some dryRun })

/-- The documents a collection-level query returns: the whole collection,
optionally restricted by the `where('companyId', '==', companyId)` clause. -/
def filteredDocs (store : Store) (col : String) (companyId : Option String) :
    List (String × Doc) :=
  match companyId with
  | some cid =>
      (store col).filter (fun e => beqV (jsIndex e.2 "companyId") (Value.vStr cid))
  | none => store col

/-- A reified collection-level query execution: which collection was asked,
the tenant restriction, the `limit(...)` applied to the query (`none` when
the source never calls `.limit`), and the documents the query returns. -/
structure QueryFetch where
  collection : String
  companyId : Option String
  limit : Option Nat
  docs : List (String × Doc)
deriving Repr

/-- The one snapshot fetch `migrateCollection` performs: `db.collection(c)`
(optionally `.where('companyId','==',cid)`) followed by `.get()` with no
`.limit` — the entire collection in a single query. -/
def migrateCollectionFetch (store : Store) (col : String) (companyId : Option String) :
    QueryFetch :=
  { collection := col, companyId := companyId, limit := none
    , docs := filteredDocs store col companyId }

/-- One per-document entry of a collection migration report
(`{ id, name, ...result }`). -/
structure CollEntry where
  id : String
  name : Value
  report : MigReport
deriving Repr

/-- The collection-level migration report. -/
structure CollReport where
  success : Bool
  total : Nat
  successful : Nat
  failed : Nat
  results : List CollEntry
deriving Repr

/-- `migrateCollection(collectionName, companyId, dryRun)`: one unbounded
snapshot fetch, then `migrateDocument` on each snapshot document in order,
threading the store state. -/
def migrateCollection (reg : Registry) (store : Store) (collectionName : String)
    (companyId : Option String) (dryRun : Bool) (now : String) :
    Store × CollReport :=
  let fetch := migrateCollectionFetch store collectionName companyId
  let res := fetch.docs.foldl
    (fun (acc : Store × List CollEntry) e =>
      let r := migrateDocument reg acc.1 collectionName e.1 dryRun now
      (r.1, acc.2 ++ [{ id := e.1, name := jsIndex e.2 "name", report := r.2 }]))
    (store, [])
  let successful := res.2.countP (fun e => e.report.success)
  let failed := res.2.countP (fun e => !e.report.success)
  (res.1,
   { success := failed = 0, total := res.2.length, successful := successful
     , failed := failed, results := res.2 })

/-- The effective version key a stored document is grouped under:
`String(doc.data().schemaVersion || '1.0')` (the JS `||` falls back on any
falsy stamp; the value is then coerced to an object key). -/
def effVersion (d : Doc) : String :=
  let sv := jsIndex d "schemaVersion"
  if jsTruthy sv then jsValueToString sv else "1.0"

/-- `versions[version] = (versions[version] || 0) + 1` on the ordered counter
object. -/
def bumpCount : List (String × Nat) → String → List (String × Nat)
  | [], k => [(k, 1)]
  | (k1, c) :: rest, k =>
      if k1 = k then (k1, c + 1) :: rest else (k1, c) :: bumpCount rest k

/-- The migration status report object. -/
structure StatusReport where
  collection : String
  currentSchemaVersion : String
  totalDocuments : Nat
  versionBreakdown : List (String × Nat)
  needsMigration : Bool
  outdatedCount : Nat
deriving Repr, DecidableEq

/-- `getMigrationStatus(collectionName, companyId)`. -/
def getMigrationStatus (reg : Registry) (store : Store) (collectionName : String)
    (companyId : Option String) : StatusReport :=
  let docs := filteredDocs store collectionName companyId
  let currentVersion :=
    match getSchemaIn reg (collectionName.dropRight 1) with
    | some s => if s.version = "" then "1.0" else s.version
    | none => "1.0"
  let versions := docs.foldl (fun acc e => bumpCount acc (effVersion e.2)) []
  { collection := collectionName
    , currentSchemaVersion := currentVersion
    , totalDocuments := docs.length
    , versionBreakdown := versions
    , needsMigration := versions.any (fun p => p.1 ≠ currentVersion)
    , outdatedCount :=
        (versions.filter (fun p => p.1 ≠ currentVersion)).foldl
          (fun s p => s + p.2) 0 }

/-! ## Paged bulk deletion (`scripts/reset-analytics.js`)

The reset loop repeatedly issues `collectionRef.limit(500).get()`, stops on
an empty snapshot, and otherwise batch-deletes the snapshot and repeats on
what remains. -/

/-- The reset loop, returning the `limit` of every query it issued and the
total number of documents deleted. -/
def resetAnalyticsLoop : List (String × Doc) → List (Option Nat) × Nat
  | [] => ([some 500], 0)
  | d :: rest =>
      let batch := (d :: rest).take 500
      let r := resetAnalyticsLoop ((d :: rest).drop 500)
      (some 500 :: r.1, batch.length + r.2)
termination_by l => l.length
decreasing_by simp [List.length_drop]; omega

/-! ## General lemmas about document operations -/

/-- Looking a key up after a delete: gone if it was the deleted key,
unchanged otherwise. -/
theorem lookupD_delKey (d : Doc) (n k : String) :
    lookupD (delKey d n) k = if n = k then none else lookupD d k := by
  induction d with
  | nil => simp [delKey, lookupD]
  | cons e rest ih =>
      obtain ⟨k1, v⟩ := e
      by_cases h1 : k1 = n
      · subst h1
        by_cases h2 : k1 = k
        · subst h2
          simp [delKey, ih]
        · simp [delKey, lookupD, h2, ih]
      · by_cases h2 : k1 = k
        · subst h2
          simp [delKey, lookupD, h1, Ne.symm h1]
        · simp [delKey, lookupD, h1, h2, ih]

/-- The sanitizer's fold only ever deletes keys, so an absent key stays
absent. -/
theorem sanitizeFold_none (fs : List FieldDef) (d : Doc) (k : String)
    (h : lookupD d k = none) :
    lookupD
      (fs.foldl
        (fun acc f =>
          if f.editable == some false || f.generated then delKey acc f.name else acc)
        d) k = none := by
  induction fs generalizing d with
  | nil => simpa using h
  | cons f rest ih =>
      simp only [List.foldl_cons]
      apply ih
      by_cases hg : (f.editable == some false || f.generated) = true
      · simp [hg, lookupD_delKey]
        intro hn
        exact h
      · simp only [Bool.not_eq_true] at hg
        simp [hg, h]

/-- If some descriptor in the list both names `k` and is flagged
non-editable/generated, the sanitizer's fold ends with `k` absent. -/
theorem sanitizeFold_deleted (fs : List FieldDef) (d : Doc) (k : String)
    (h : ∃ f ∈ fs, f.name = k ∧ (f.editable == some false || f.generated) = true) :
    lookupD
      (fs.foldl
        (fun acc f =>
          if f.editable == some false || f.generated then delKey acc f.name else acc)
        d) k = none := by
  induction fs generalizing d with
  | nil => simp at h
  | cons f rest ih =>
      obtain ⟨g, hg, hname, hflag⟩ := h
      simp only [List.mem_cons] at hg
      rcases hg with rfl | hg
      · simp only [List.foldl_cons, hflag, if_true]
        apply sanitizeFold_none
        simp [lookupD_delKey, hname]
      · exact ih _ ⟨g, hg, hname, hflag⟩

/-! ## Claim C2 -/

/-- C2 counterexample: the claim states that the sanitized payload never
contains a `schemaVersion` key.  No schema declares a `schemaVersion` field
descriptor, so `sanitizeData` leaves a caller-supplied `schemaVersion`
untouched (shown here for the `dialogue` type). -/
theorem C2_counterexample_schemaVersion_survives :
    hasOwn (sanitizeData "dialogue" [("schemaVersion", Value.vStr "9.9")])
        "schemaVersion" = true ∧
    lookupD (sanitizeData "dialogue" [("schemaVersion", Value.vStr "9.9")])
        "schemaVersion" = some (Value.vStr "9.9") :=
  ⟨rfl, rfl⟩

/-- C2 (amended): for each entity type whose schema source is in the
repository (`character`, `dialogue`, `environment`) the sanitized payload
contains no key for the document id, the tenant id, or the audit fields —
those descriptors are flagged `generated`/`editable: false` — but a
caller-supplied `schemaVersion` key is not removed. -/
theorem C2_sanitize_removes_bookkeeping (t k : String) (data : Doc)
    (ht : t ∈ ["character", "dialogue", "environment"])
    (hk : k ∈ ["id", "companyId", "createdBy", "createdAt", "updatedAt", "updatedBy"]) :
    lookupD (sanitizeData t data) k = none := by
  have hdel : ∀ s : SchemaDef, getSchema t = some s →
      (∃ f ∈ dedupByName (allFields s),
        f.name = k ∧ (f.editable == some false || f.generated) = true) →
      lookupD (sanitizeData t data) k = none := by
    intro s hs hex
    simp only [sanitizeData, hs]
    exact sanitizeFold_deleted _ _ _ hex
  fin_cases ht <;> fin_cases hk <;> exact hdel _ rfl (by decide)

/-- C2 witness: the `character` sanitizer drops a forged `id`. -/
theorem C2_witness :
    "character" ∈ ["character", "dialogue", "environment"] ∧
    "id" ∈ ["id", "companyId", "createdBy", "createdAt", "updatedAt", "updatedBy"] ∧
    lookupD (sanitizeData "character" [("id", Value.vStr "forged")]) "id" = none :=
  ⟨by decide, by decide,
   C2_sanitize_removes_bookkeeping "character" "id" [("id", Value.vStr "forged")]
     (by decide) (by decide)⟩

/-! ## Claim C5 -/

/-- C5 counterexample: the claim states that for an unknown type `sanitize`
fails rather than returning the payload as if it had been sanitized.  For a
type with no registered schema, `sanitizeData` returns the payload
unchanged — even one carrying a forged generated key. -/
theorem C5_counterexample_sanitize_passthrough :
    getSchema "widget" = none ∧
    sanitizeData "widget" [("id", Value.vStr "forged")] = [("id", Value.vStr "forged")] :=
  ⟨rfl, rfl⟩

/-- C5 (amended): an unknown type is fatal to `validate`, whose result is
invalid with the single error naming the unknown type; `sanitizeData`,
however, returns the payload unchanged for an unknown type. -/
theorem C5_unknown_type (t : String) (h : getSchema t = none) :
    (∀ (data : Doc) (isUpdate : Bool) (existingData : Option Doc),
      validateData t data isUpdate existingData =
        { valid := false, errors := [⟨"", ErrKind.unknownType t⟩], warnings := [] }) ∧
    (∀ data : Doc, sanitizeData t data = data) := by
  constructor
  · intro data isUpdate existingData
    simp [validateData, h]
  · intro data
    simp [sanitizeData, h]

/-- C5 witness at the unregistered type name `widget`. -/
theorem C5_witness :
    getSchema "widget" = none ∧
    (validateData "widget" [("name", Value.vStr "B")] false none).errors
      = [⟨"", ErrKind.unknownType "widget"⟩] ∧
    sanitizeData "widget" [("name", Value.vStr "B")] = [("name", Value.vStr "B")] :=
  ⟨rfl,
   congrArg VResult.errors
     ((C5_unknown_type "widget" rfl).1 [("name", Value.vStr "B")] false none),
   (C5_unknown_type "widget" rfl).2 [("name", Value.vStr "B")]⟩

/-! ## Claim C1 -/

/-- The failing input for C1: the schema-evolution guide's own example — a
required `string` field with declared default `'draft'` — applied to a
document that lacks the field. -/
def c1FailingSchema : SchemaDef :=
  { type := "character", version := "1.1", collection := "characters"
    , fields := [{ name := "status", type := "string", required := true
                   , default := some (Value.vStr "draft") }] }

/-- C1: the claim (and the repository's SCHEMA_EVOLUTION_GUIDE.md) state
that a required field with a declared default ends up holding the default.
`applyDefaults` first writes the default, but the required-field pass
re-tests the ORIGINAL document (`data[field.name]`), still finds the field
missing, and overwrites the default with the type placeholder: the result
holds `""`, not `"draft"`. -/
theorem C1_required_default_gets_placeholder :
    (applyDefaults [] c1FailingSchema).1 = [("status", Value.vStr "")] ∧
    lookupD (applyDefaults [] c1FailingSchema).1 "status" = some (Value.vStr "") ∧
    (applyDefaults [] c1FailingSchema).2 = true :=
  ⟨rfl, rfl, rfl⟩

/-! ## Claim C4 -/

/-- C4: a dry-run `migrateDocument` performs no store write — the store
after the call is the store before it — while the report it returns equals
the wet-run report up to the `dryRun` flag (so it still describes the
would-be change set). -/
theorem C4_dryRun_writes_nothing (reg : Registry) (store : Store)
    (col id now : String) :
    (migrateDocument reg store col id true now).1 = store ∧
    (migrateDocument reg store col id true now).2 =
      { (migrateDocument reg store col id false now).2 with
          dryRun :=
            ((migrateDocument reg store col id false now).2.dryRun).map
              (fun _ => true) } := by
  unfold migrateDocument
  cases h1 : lookupDoc (store col) id with
  | none => exact ⟨rfl, rfl⟩
  | some data =>
      cases h2 : getSchemaIn reg (col.dropRight 1) with
      | none => exact ⟨rfl, rfl⟩
      | some schema =>
          dsimp only
          split
          · exact ⟨rfl, rfl⟩
          · split
            · exact ⟨rfl, rfl⟩
            · exact ⟨rfl, rfl⟩

/-! ## Lemmas about the version counter (for C7 and C10) -/

/-- Folding `+` of the second components, with an offset. -/
theorem foldlAddSnd (l : List (String × Nat)) (a : Nat) :
    l.foldl (fun s p => s + p.2) a = a + (l.map Prod.snd).sum := by
  induction l generalizing a with
  | nil => simp
  | cons p rest ih => simp [ih, Nat.add_assoc]

/-- One bump raises the total count by one. -/
theorem sum_bumpCount (l : List (String × Nat)) (k : String) :
    ((bumpCount l k).map Prod.snd).sum = (l.map Prod.snd).sum + 1 := by
  induction l with
  | nil => simp [bumpCount]
  | cons p rest ih =>
      obtain ⟨k1, c⟩ := p
      by_cases h : k1 = k
      · simp only [bumpCount, h, if_true, List.map_cons, List.sum_cons]
        omega
      · simp [bumpCount, h, ih, Nat.add_assoc]

/-- Keys after a bump: the bumped key joins the key list if new. -/
theorem mem_keys_bumpCount (l : List (String × Nat)) (k k1 : String) :
    k1 ∈ (bumpCount l k).map Prod.fst ↔ k1 ∈ l.map Prod.fst ∨ k1 = k := by
  induction l with
  | nil => simp [bumpCount]
  | cons p rest ih =>
      obtain ⟨k2, c⟩ := p
      by_cases h : k2 = k
      · subst h
        by_cases h2 : k1 = k2 <;> simp [bumpCount, h2]
      · simp [bumpCount, h, ih, or_assoc]

/-- A bump at key `k` raises the filtered total by one iff `k` satisfies the
key predicate. -/
theorem filteredSum_bumpCount (l : List (String × Nat)) (k : String)
    (q : String → Bool) :
    (((bumpCount l k).filter (fun p => q p.1)).map Prod.snd).sum =
      ((l.filter (fun p => q p.1)).map Prod.snd).sum + (if q k then 1 else 0) := by
  induction l with
  | nil =>
      by_cases h : q k <;> simp [bumpCount, List.filter, h]
  | cons p rest ih =>
      obtain ⟨k2, c⟩ := p
      by_cases h : k2 = k
      · subst h
        by_cases h2 : q k2
        · simp only [bumpCount, if_true, List.filter, h2, List.map_cons,
            List.sum_cons]
          omega
        · simp [bumpCount, List.filter, h2]
      · by_cases h2 : q k2 <;>
          simp [bumpCount, List.filter, h, h2, ih, Nat.add_assoc]

/-- The total count of the version counter built over a document list. -/
theorem counterFold_sum (docs : List (String × Doc)) (init : List (String × Nat)) :
    (((docs.foldl (fun acc e => bumpCount acc (effVersion e.2)) init)).map
        Prod.snd).sum =
      (init.map Prod.snd).sum + docs.length := by
  induction docs generalizing init with
  | nil => simp
  | cons e rest ih =>
      simp only [List.foldl_cons, List.length_cons]
      rw [ih, sum_bumpCount]
      omega

/-- The key set of the version counter built over a document list. -/
theorem counterFold_keys (docs : List (String × Doc)) (init : List (String × Nat))
    (k : String) :
    k ∈ ((docs.foldl (fun acc e => bumpCount acc (effVersion e.2)) init)).map
        Prod.fst ↔
      k ∈ init.map Prod.fst ∨ ∃ e ∈ docs, effVersion e.2 = k := by
  induction docs generalizing init with
  | nil => simp
  | cons e rest ih =>
      simp only [List.foldl_cons, List.mem_cons]
      rw [ih]
      rw [mem_keys_bumpCount]
      constructor
      · rintro (⟨h | h⟩ | h)
        · exact Or.inl h
        · exact Or.inr ⟨e, Or.inl rfl, h.symm⟩
        · obtain ⟨g, hg, hk⟩ := h
          exact Or.inr ⟨g, Or.inr hg, hk⟩
      · rintro (h | ⟨g, (rfl | hg), hk⟩)
        · exact Or.inl (Or.inl h)
        · exact Or.inl (Or.inr hk.symm)
        · exact Or.inr ⟨g, hg, hk⟩

/-- The filtered total of the version counter counts exactly the documents
whose effective version satisfies the key predicate. -/
theorem counterFold_filteredSum (docs : List (String × Doc))
    (init : List (String × Nat)) (q : String → Bool) :
    (((docs.foldl (fun acc e => bumpCount acc (effVersion e.2)) init)).filter
          (fun p => q p.1) |>.map Prod.snd).sum =
      ((init.filter (fun p => q p.1)).map Prod.snd).sum +
        docs.countP (fun e => q (effVersion e.2)) := by
  induction docs generalizing init with
  | nil => simp
  | cons e rest ih =>
      simp only [List.foldl_cons, List.countP_cons]
      rw [ih, filteredSum_bumpCount]
      omega

/-! ## Claim C7 -/

/-- C7: for every registry, store, collection and tenant filter, the status
report's breakdown counts sum exactly to `totalDocuments`; `needsMigration`
holds iff some fetched document's effective stamped version differs from the
report's current version; and `outdatedCount` equals the number of fetched
documents whose effective stamped version differs from it. -/
theorem C7_status_invariants (reg : Registry) (store : Store) (col : String)
    (cid : Option String) :
    (((getMigrationStatus reg store col cid).versionBreakdown.map Prod.snd).sum =
        (getMigrationStatus reg store col cid).totalDocuments) ∧
    ((getMigrationStatus reg store col cid).needsMigration = true ↔
      ∃ e ∈ filteredDocs store col cid,
        effVersion e.2 ≠ (getMigrationStatus reg store col cid).currentSchemaVersion) ∧
    ((getMigrationStatus reg store col cid).outdatedCount =
      ((filteredDocs store col cid).filter
        (fun e =>
          effVersion e.2 ≠
            (getMigrationStatus reg store col cid).currentSchemaVersion)).length) := by
  refine ⟨?_, ?_, ?_⟩
  · simp only [getMigrationStatus]
    rw [counterFold_sum]
    simp
  · simp only [getMigrationStatus, List.any_eq_true]
    constructor
    · rintro ⟨p, hp, hne⟩
      have hk := (counterFold_keys (filteredDocs store col cid) [] p.1).mp
        (List.mem_map_of_mem Prod.fst hp)
      simp only [List.map_nil, List.not_mem_nil, false_or] at hk
      obtain ⟨e, he, hv⟩ := hk
      exact ⟨e, he, by simpa [hv] using hne⟩
    · rintro ⟨e, he, hne⟩
      have hk := (counterFold_keys (filteredDocs store col cid) [] (effVersion e.2)).mpr
        (Or.inr ⟨e, he, rfl⟩)
      obtain ⟨p, hp, hfst⟩ := List.mem_map.mp hk
      exact ⟨p, hp, by simpa [hfst] using hne⟩
  · simp only [getMigrationStatus]
    rw [foldlAddSnd]
    rw [counterFold_filteredSum (filteredDocs store col cid) [] (fun v =>
      decide (v ≠
        match getSchemaIn reg (col.dropRight 1) with
        | some s => if s.version = "" then "1.0" else s.version
        | none => "1.0"))]
    simp [List.countP_eq_length_filter]

/-- `beqV` on two strings is string equality. -/
theorem beqV_str (a b : String) : beqV (Value.vStr a) (Value.vStr b) = (a == b) := rfl

/-! ## Claim C10 -/

/-- C10: a stored document with no `schemaVersion` key is treated as stamped
`"1.0"` throughout the migration engine: `migrateDocument` migrates it
(successfully) reporting `from = "1.0"` whenever the registry's version
differs, its effective grouping version is `"1.0"`, the status breakdown's
`"1.0"` bucket counts exactly the documents with effective version `"1.0"`,
and when the current version differs from `"1.0"` every unstamped document
is counted among the outdated ones. -/
theorem C10_missing_stamp_is_v10
    (reg : Registry) (store : Store) (col id : String) (cid : Option String)
    (d : Doc) (s : SchemaDef) (dr : Bool) (now : String)
    (hdoc : lookupDoc (store col) id = some d)
    (hnostamp : lookupD d "schemaVersion" = none)
    (hschema : getSchemaIn reg (col.dropRight 1) = some s)
    (hver : s.version ≠ "1.0") :
    ((migrateDocument reg store col id dr now).2.fromVersion =
        some (Value.vStr "1.0") ∧
      (migrateDocument reg store col id dr now).2.success = true) ∧
    effVersion d = "1.0" ∧
    ((((getMigrationStatus reg store col cid).versionBreakdown.filter
          (fun p => p.1 = "1.0")).map Prod.snd).sum =
      ((filteredDocs store col cid).filter
        (fun e => effVersion e.2 = "1.0")).length) ∧
    ((getMigrationStatus reg store col cid).currentSchemaVersion ≠ "1.0" →
      ((filteredDocs store col cid).filter
          (fun e => (lookupD e.2 "schemaVersion").isNone)).length ≤
        (getMigrationStatus reg store col cid).outdatedCount) := by
  have hidx : jsIndex d "schemaVersion" = Value.vUndef := by
    simp [jsIndex, hnostamp]
  have hbeq : ("1.0" == s.version) = false :=
    beq_eq_false_iff_ne.mpr (Ne.symm hver)
  refine ⟨?_, ?_, ?_, ?_⟩
  · simp only [migrateDocument, hdoc, hschema]
    have hcurv : jsOrVal (jsIndex d "schemaVersion") (Value.vStr "1.0") =
        Value.vStr "1.0" := by
      rw [hidx]; rfl
    simp only [hcurv, beqV_str, hbeq, Bool.false_eq_true, if_false]
    split <;> exact ⟨rfl, rfl⟩
  · simp [effVersion, hidx, jsTruthy]
  · simp only [getMigrationStatus]
    rw [counterFold_filteredSum (filteredDocs store col cid) []
      (fun v => decide (v = "1.0"))]
    simp [List.countP_eq_length_filter]
  · intro hcur
    have houtdated :
        (getMigrationStatus reg store col cid).outdatedCount =
          (filteredDocs store col cid).countP
            (fun e =>
              decide (effVersion e.2 ≠
                (getMigrationStatus reg store col cid).currentSchemaVersion)) := by
      simp only [getMigrationStatus]
      rw [foldlAddSnd]
      rw [counterFold_filteredSum (filteredDocs store col cid) [] (fun v =>
        decide (v ≠
          match getSchemaIn reg (col.dropRight 1) with
          | some s => if s.version = "" then "1.0" else s.version
          | none => "1.0"))]
      simp
    rw [houtdated, ← List.countP_eq_length_filter]
    apply List.countP_mono_left
    intro e he hp
    have hp2 : lookupD e.2 "schemaVersion" = none :=
      Option.isNone_iff_eq_none.mp hp
    simp only [decide_eq_true_eq]
    have heff : effVersion e.2 = "1.0" := by
      simp [effVersion, jsIndex, hp2, jsTruthy]
    rw [heff]
    exact Ne.symm hcur

/-- An evolved-registry schema used to witness C10: version `"2.0"`. -/
def c10WidgetSchema : SchemaDef :=
  { type := "widget", version := "2.0", collection := "widgets"
    , fields := [{ name := "name", type := "string" }] }

/-- The registry for the C10 witness. -/
def c10Reg : Registry := [("widget", c10WidgetSchema)]

/-- The store for the C10 witness: one `widgets` document with no
`schemaVersion` stamp. -/
def c10Store : Store :=
  fun c => if c = "widgets" then [("w1", [("name", Value.vStr "A")])] else []

/-- C10 witness: a concrete unstamped document against a version-2.0
registry. -/
theorem C10_witness :
    lookupDoc (c10Store "widgets") "w1" = some [("name", Value.vStr "A")] ∧
    lookupD [("name", Value.vStr "A")] "schemaVersion" = none ∧
    getSchemaIn c10Reg ("widgets".dropRight 1) = some c10WidgetSchema ∧
    (c10WidgetSchema.version == "1.0") = false ∧
    (migrateDocument c10Reg c10Store "widgets" "w1" true "t").2.fromVersion =
      some (Value.vStr "1.0") ∧
    (migrateDocument c10Reg c10Store "widgets" "w1" true "t").2.success = true ∧
    effVersion [("name", Value.vStr "A")] = "1.0" ∧
    ((((getMigrationStatus c10Reg c10Store "widgets" none).versionBreakdown.filter
        (fun p => p.1 = "1.0")).map Prod.snd).sum =
      ((filteredDocs c10Store "widgets" none).filter
        (fun e => effVersion e.2 = "1.0")).length) ∧
    (((filteredDocs c10Store "widgets" none).filter
        (fun e => (lookupD e.2 "schemaVersion").isNone)).length ≤
      (getMigrationStatus c10Reg c10Store "widgets" none).outdatedCount) := by
  have h4 : c10WidgetSchema.version ≠ "1.0" := by decide
  have h := C10_missing_stamp_is_v10 c10Reg c10Store "widgets" "w1" none
    [("name", Value.vStr "A")] c10WidgetSchema true "t" rfl rfl rfl h4
  exact ⟨rfl, rfl, rfl, by decide, h.1.1, h.1.2, h.2.1, h.2.2.1,
    h.2.2.2 (by decide)⟩

/-! ## Claim C6 -/

/-- A three-document store for the C6 counterexample. -/
def c6Store : Store :=
  fun c =>
    if c = "characters" then
      [("a", [("name", Value.vStr "A")]), ("b", [("name", Value.vStr "B")]),
       ("c", [("name", Value.vStr "C")])]
    else []

/-- C6 counterexample: the claim states that the migration sweep fetches
bounded-size pages and never issues a single unbounded fetch.  The one
snapshot query `migrateCollection` performs carries no `limit` and returns
the entire collection in a single fetch (here all 3 documents at once). -/
theorem C6_counterexample_unbounded_fetch :
    (migrateCollectionFetch c6Store "characters" none).limit = none ∧
    (migrateCollectionFetch c6Store "characters" none).docs = c6Store "characters" ∧
    ((migrateCollectionFetch c6Store "characters" none).docs.length = 3 ∧
      (c6Store "characters").length = 3) :=
  ⟨rfl, rfl, rfl, rfl⟩

/-- C6 (amended): the paging discipline holds for the analytics bulk
deletion — every query of the reset loop is limited to 500 documents and the
loop still deletes the whole collection — but not for the migration sweep:
`migrateCollection` issues exactly one collection-level query, with no
limit, returning every (tenant-filtered) document at once. -/
theorem C6_bulk_paging (logs : List (String × Doc)) (store : Store)
    (col : String) (cid : Option String) :
    ((∀ q ∈ (resetAnalyticsLoop logs).1, q = some 500) ∧
      (resetAnalyticsLoop logs).2 = logs.length) ∧
    ((migrateCollectionFetch store col cid).limit = none ∧
      (migrateCollectionFetch store col cid).docs = filteredDocs store col cid) := by
  refine ⟨?_, rfl, rfl⟩
  have main : ∀ (n : Nat) (l : List (String × Doc)), l.length ≤ n →
      (∀ q ∈ (resetAnalyticsLoop l).1, q = some 500) ∧
        (resetAnalyticsLoop l).2 = l.length := by
    intro n
    induction n with
    | zero =>
        intro l hl
        have : l = [] := List.length_eq_zero.mp (Nat.le_zero.mp hl)
        subst this
        constructor
        · intro q hq
          simp [resetAnalyticsLoop] at hq
          simp [hq]
        · simp [resetAnalyticsLoop]
    | succ n ih =>
        intro l hl
        match l with
        | [] =>
            constructor
            · intro q hq
              simp [resetAnalyticsLoop] at hq
              simp [hq]
            · simp [resetAnalyticsLoop]
        | d :: rest =>
            have hdrop : ((d :: rest).drop 500).length ≤ n := by
              simp only [List.length_drop, List.length_cons]
              simp only [List.length_cons] at hl
              omega
            obtain ⟨iha, ihb⟩ := ih ((d :: rest).drop 500) hdrop
            rw [resetAnalyticsLoop]
            constructor
            · intro q hq
              simp only [List.mem_cons] at hq
              rcases hq with rfl | hq
              · rfl
              · exact iha q hq
            · simp only [ihb, List.length_take, List.length_drop,
                List.length_cons]
              omega
  exact main logs.length logs (Nat.le_refl _)

/-! ## Claim C8 -/

/-- Whether a value is a plain object (used to state that an array's items
are all nested objects, the situation C8 describes; on non-object items the
JS sub-validator would read properties of a primitive or throw). -/
def isObjV : Value → Bool
  | .vObj _ => true
  | _ => false

/-- C8: for every array field whose items are nested objects, every error
the nested validator produces for the `i`-th present item — path-qualified
as `name[i]` and, inside, `name[i].subfield` — appears among `validate`'s
errors. -/
theorem C8_array_items_validated
    (t : String) (s : SchemaDef) (f : FieldDef) (data : Doc) (u : Bool)
    (ed : Option Doc) (items : List Value) (sch : List (String × SubField))
    (i : Nat) (item : Value) (e : VError)
    (ht : getSchema t = some s)
    (hf : f ∈ dedupByName (allFields s))
    (htype : f.type = "array")
    (hitem : f.itemType = some "object")
    (hsch : f.schema = some sch)
    (hskip : (f.generated && f.editable == some false) = false)
    (hval : jsIndex data f.name = Value.vArr items)
    (_hobj : items.all isObjV = true)
    (hi : items[i]? = some item)
    (he : e ∈ validateObjectAgainstSchema item sch
      (f.name ++ "[" ++ toString i ++ "]")) :
    e ∈ (validateData t data u ed).errors := by
  have herr : (validateData t data u ed).errors =
      (dedupByName (allFields s)).flatMap (fieldCheck data u) := by
    simp [validateData, ht]
  rw [herr]
  apply List.mem_flatMap.mpr
  refine ⟨f, hf, ?_⟩
  have hfc : fieldCheck data u f = typeCheck f (Value.vArr items) := by
    simp [fieldCheck, hskip, hval, isMissingOrEmpty, isMissing]
  rw [hfc]
  have htc : e ∈ items.enum.flatMap (fun p =>
      validateObjectAgainstSchema p.2 sch (f.name ++ "[" ++ toString p.1 ++ "]")) := by
    apply List.mem_flatMap.mpr
    exact ⟨(i, item), List.mk_mem_enum_iff_getElem?.mpr hi, he⟩
  simp only [typeCheck, typeCheckNested, htype, hitem, hsch]
  simp only [List.mem_append]
  exact Or.inr htc

/-- The `roles` field descriptor of the dialogue schema (spelled out for the
C8 witness; definitionally the element of `dialogueSchema`). -/
def c8RolesField : FieldDef :=
  { name := "roles", type := "array", itemType := some "object"
    , schema := some
        [ ("roleId", { type := "string", required := true })
        , ("rolePreset",
           { type := "select"
           , options := ["protagonist", "antagonist", "guide",
               "mentor", "observer", "participant"] })
        , ("roleDescription",
           { type := "text"
           , validation := some { maxLength := some 1000 } }) ] }

/-- The nested field map of `roles`. -/
def c8Sch : List (String × SubField) :=
  [ ("roleId", { type := "string", required := true })
  , ("rolePreset",
     { type := "select"
     , options := ["protagonist", "antagonist", "guide",
         "mentor", "observer", "participant"] })
  , ("roleDescription",
     { type := "text"
     , validation := some { maxLength := some 1000 } }) ]

/-- The C8 witness payload: `roles[0]` omits the required nested `roleId`. -/
def c8Payload : Doc :=
  [("name", Value.vStr "D"),
   ("roles", Value.vArr [Value.vObj [("rolePreset", Value.vStr "guide")]])]

/-- C8 witness: the dialogue payload whose `roles[0]` omits `roleId` yields
the path-qualified error `roles[0].roleId`. -/
theorem C8_witness :
    getSchema "dialogue" = some dialogueSchema ∧
    c8RolesField ∈ dedupByName (allFields dialogueSchema) ∧
    jsIndex c8Payload "roles" =
      Value.vArr [Value.vObj [("rolePreset", Value.vStr "guide")]] ∧
    VError.mk "roles[0].roleId" .required ∈
      validateObjectAgainstSchema (Value.vObj [("rolePreset", Value.vStr "guide")])
        c8Sch "roles[0]" ∧
    VError.mk "roles[0].roleId" .required ∈
      (validateData "dialogue" c8Payload false none).errors := by
  have hfmem : c8RolesField ∈ dedupByName (allFields dialogueSchema) :=
    .tail _ (.tail _ (.tail _ (.tail _ (.tail _ (.head _)))))
  have hsub : VError.mk "roles[0].roleId" .required ∈
      validateObjectAgainstSchema (Value.vObj [("rolePreset", Value.vStr "guide")])
        c8Sch "roles[0]" := by decide
  refine ⟨rfl, hfmem, rfl, hsub, ?_⟩
  exact C8_array_items_validated "dialogue" dialogueSchema c8RolesField c8Payload
    false none [Value.vObj [("rolePreset", Value.vStr "guide")]] c8Sch 0
    (Value.vObj [("rolePreset", Value.vStr "guide")])
    (VError.mk "roles[0].roleId" .required)
    rfl hfmem rfl rfl rfl rfl rfl rfl rfl hsub

/-! ## Error-path lemmas (for C3) -/

/-- A key is absent from a document iff `hasOwnProperty` is false. -/
theorem lookupD_none_iff_hasOwn (d : Doc) (n : String) :
    lookupD d n = none ↔ hasOwn d n = false := by
  induction d with
  | nil => simp [lookupD, hasOwn]
  | cons e rest ih =>
      obtain ⟨k, v⟩ := e
      by_cases h : k = n <;> simp [lookupD, hasOwn, h, ih]

/-- A string is a character-level leading segment of itself followed by
anything. -/
theorem strLeadsAppend (a b : String) : a.data <+: (a ++ b).data := by
  rw [String.data_append]
  exact List.prefix_append _ _

/-- Every error of the nested validator is path-qualified under the given
path. -/
theorem vOAS_path (obj : Value) (sch : List (String × SubField)) (pre : String)
    (e : VError) (he : e ∈ validateObjectAgainstSchema obj sch pre) :
    pre.data <+: e.field.data := by
  obtain ⟨p, hp, he2⟩ := List.mem_flatMap.mp he
  obtain ⟨k, hk, rfl⟩ := List.mem_map.mp he2
  by_cases hpre : pre = ""
  · subst hpre
    simp
  · simp only [ne_eq, hpre, not_false_iff, if_true]
    rw [String.data_append]
    exact (strLeadsAppend pre ".").trans (List.prefix_append _ _)

/-- Every error the per-field dispatch produces is path-qualified under the
field's name. -/
theorem typeCheck_path (f : FieldDef) (value : Value) (e : VError)
    (he : e ∈ typeCheck f value) : f.name.data <+: e.field.data := by
  rcases List.mem_append.mp he with h | h
  · obtain ⟨k, hk, rfl⟩ := List.mem_map.mp h
    exact List.prefix_refl _
  · unfold typeCheckNested at h
    split at h
    · split at h
      · obtain ⟨p, hp, h2⟩ := List.mem_flatMap.mp h
        refine List.IsPrefix.trans ?_ (vOAS_path _ _ _ _ h2)
        exact ((strLeadsAppend f.name "[").trans
          (strLeadsAppend (f.name ++ "[") (toString p.1))).trans
          (strLeadsAppend (f.name ++ "[" ++ toString p.1) "]")
      · cases h
    · split at h
      · exact vOAS_path _ _ _ _ h
      · cases h
    · cases h

/-- Every error the validator's per-field loop body produces is
path-qualified under the field's name. -/
theorem fieldCheck_path (data : Doc) (u : Bool) (f : FieldDef) (e : VError)
    (he : e ∈ fieldCheck data u f) : f.name.data <+: e.field.data := by
  unfold fieldCheck at he
  by_cases h1 : (f.generated && f.editable == some false) = true
  · rw [if_pos h1] at he
    cases he
  · rw [if_neg h1] at he
    by_cases h2 : (f.required && isMissingOrEmpty (jsIndex data f.name)) = true
    · rw [if_pos h2] at he
      by_cases h3 : u = true
      · rw [if_pos h3] at he
        by_cases h4 : hasOwn data f.name = true
        · rw [if_pos h4] at he
          simp only [List.mem_singleton] at he
          subst he
          exact List.prefix_refl _
        · rw [if_neg h4] at he
          cases he
      · rw [if_neg h3] at he
        simp only [List.mem_singleton] at he
        subst he
        exact List.prefix_refl _
    · rw [if_neg h2] at he
      by_cases h5 : isMissing (jsIndex data f.name) = true
      · rw [if_pos h5] at he
        cases he
      · rw [if_neg h5] at he
        exact typeCheck_path _ _ _ he

/-- A field surviving de-duplication was not among the already-seen names. -/
theorem mem_dedupGo_not_seen (fs : List FieldDef) :
    ∀ (seen : List String) (g : FieldDef), g ∈ dedupGo seen fs →
      seen.contains g.name = false := by
  induction fs with
  | nil =>
      intro seen g hg
      cases hg
  | cons f rest ih =>
      intro seen g hg
      simp only [dedupGo] at hg
      by_cases hc : seen.contains f.name = true
      · rw [if_pos hc] at hg
        exact ih seen g hg
      · rw [if_neg hc] at hg
        rcases List.mem_cons.mp hg with rfl | hg2
        · exact Bool.eq_false_iff.mpr hc
        · have h2 := ih _ g hg2
          simp only [List.contains_cons, Bool.or_eq_false_iff] at h2
          exact h2.2

/-- De-duplicated fields are determined by their names. -/
theorem dedupGo_inj (fs : List FieldDef) :
    ∀ (seen : List String) (g1 g2 : FieldDef), g1 ∈ dedupGo seen fs →
      g2 ∈ dedupGo seen fs → g1.name = g2.name → g1 = g2 := by
  induction fs with
  | nil =>
      intro seen g1 g2 h1
      cases h1
  | cons f rest ih =>
      intro seen g1 g2 h1 h2 hname
      simp only [dedupGo] at h1 h2
      by_cases hc : seen.contains f.name = true
      · rw [if_pos hc] at h1 h2
        exact ih seen g1 g2 h1 h2 hname
      · rw [if_neg hc] at h1 h2
        rcases List.mem_cons.mp h1 with rfl | h1b
        · rcases List.mem_cons.mp h2 with rfl | h2b
          · rfl
          · exfalso
            have := mem_dedupGo_not_seen rest _ g2 h2b
            simp only [List.contains_cons, Bool.or_eq_false_iff,
              beq_eq_false_iff_ne] at this
            exact this.1 hname.symm
        · rcases List.mem_cons.mp h2 with rfl | h2b
          · exfalso
            have := mem_dedupGo_not_seen rest _ g1 h1b
            simp only [List.contains_cons, Bool.or_eq_false_iff,
              beq_eq_false_iff_ne] at this
            exact this.1 hname
          · exact ih _ g1 g2 h1b h2b hname

/-- The nested sub-validator never produces the update-mode required
message kind. -/
theorem subFieldKinds_ne_rne (fd : SubField) (v : Value) (k : ErrKind)
    (hk : k ∈ subFieldKinds fd v) : k ≠ .requiredNoEmpty := by
  unfold subFieldKinds at hk
  repeat' first
    | (rcases List.mem_append.mp hk with hk | hk)
    | (split at hk)
  all_goals first
    | (exact absurd hk (List.not_mem_nil _))
    | (simp only [List.mem_singleton] at hk; subst hk; simp)

/-- Path-qualified nested errors never carry the update-mode required
message kind. -/
theorem vOAS_ne_rne (obj : Value) (sch : List (String × SubField)) (pre : String)
    (e : VError) (he : e ∈ validateObjectAgainstSchema obj sch pre) :
    e.kind ≠ .requiredNoEmpty := by
  obtain ⟨p, hp, he2⟩ := List.mem_flatMap.mp he
  obtain ⟨k, hk, rfl⟩ := List.mem_map.mp he2
  exact subFieldKinds_ne_rne _ _ _ hk

/-- The kind dispatch never produces the update-mode required message
kind. -/
theorem typeCheckKinds_ne_rne (f : FieldDef) (v : Value) (k : ErrKind)
    (hk : k ∈ typeCheckKinds f v) : k ≠ .requiredNoEmpty := by
  unfold typeCheckKinds at hk
  repeat' first
    | (rcases List.mem_append.mp hk with hk | hk)
    | (split at hk)
  all_goals first
    | (exact absurd hk (List.not_mem_nil _))
    | (simp only [List.mem_singleton] at hk; subst hk; simp)

/-- No error of the kind dispatch (nested parts included) carries the
update-mode required message kind. -/
theorem typeCheck_ne_rne (f : FieldDef) (v : Value) (e : VError)
    (he : e ∈ typeCheck f v) : e.kind ≠ .requiredNoEmpty := by
  rcases List.mem_append.mp he with h | h
  · obtain ⟨k, hk, rfl⟩ := List.mem_map.mp h
    exact typeCheckKinds_ne_rne _ _ _ hk
  · unfold typeCheckNested at h
    split at h
    · split at h
      · obtain ⟨p, hp, h2⟩ := List.mem_flatMap.mp h
        exact vOAS_ne_rne _ _ _ _ h2
      · cases h
    · split at h
      · exact vOAS_ne_rne _ _ _ _ h
      · cases h
    · cases h

/-! ## Claim C3 -/

/-- C3: for a required, non-generated field `f` of a registered type: at
creation, an absent/empty value always produces the required error for `f`;
at update, the update-mode required error for `f` is produced exactly when
the payload explicitly contains the key with an absent/empty value; and a
payload omitting the key entirely produces no error at all for `f`.  (The
`hpath` side condition rules out another field whose name is a character
prefix of `f`'s — no such pair exists in any registered schema — so that
path-qualified errors of other fields cannot collide with `f`'s name.) -/
theorem C3_required_field_enforcement (t : String) (s : SchemaDef) (f : FieldDef)
    (ht : getSchema t = some s)
    (hf : f ∈ dedupByName (allFields s))
    (hreq : f.required = true)
    (hgen : (f.generated && f.editable == some false) = false)
    (hpath : (dedupByName (allFields s)).all
      (fun g => g.name == f.name || !(decide (g.name.data <+: f.name.data))) = true) :
    (∀ data : Doc, isMissingOrEmpty (jsIndex data f.name) = true →
       VError.mk f.name .required ∈ (validateData t data false none).errors) ∧
    (∀ (data : Doc) (ed : Option Doc),
       (VError.mk f.name .requiredNoEmpty ∈ (validateData t data true ed).errors ↔
         (hasOwn data f.name = true ∧ isMissingOrEmpty (jsIndex data f.name) = true))) ∧
    (∀ (data : Doc) (ed : Option Doc), lookupD data f.name = none →
       ∀ e ∈ (validateData t data true ed).errors, e.field ≠ f.name) := by
  have herr : ∀ (data : Doc) (u : Bool) (ed : Option Doc),
      (validateData t data u ed).errors =
        (dedupByName (allFields s)).flatMap (fieldCheck data u) := by
    intro data u ed
    simp [validateData, ht]
  have hsame : ∀ (data : Doc) (u : Bool) (g : FieldDef) (e : VError),
      g ∈ dedupByName (allFields s) → e ∈ fieldCheck data u g →
      e.field = f.name → g = f := by
    intro data u g e hg hge hef
    have hpre := fieldCheck_path _ _ _ _ hge
    rw [hef] at hpre
    have hor := List.all_eq_true.mp hpath g hg
    rw [Bool.or_eq_true] at hor
    rcases hor with h | h
    · exact dedupGo_inj _ _ g f hg hf (eq_of_beq h)
    · exfalso
      simp only [Bool.not_eq_true', decide_eq_false_iff_not] at h
      exact h hpre
  refine ⟨?_, ?_, ?_⟩
  · intro data hmiss
    rw [herr]
    apply List.mem_flatMap.mpr
    refine ⟨f, hf, ?_⟩
    unfold fieldCheck
    rw [if_neg (by simp [hgen])]
    rw [if_pos (by rw [hreq, hmiss]; rfl)]
    rw [if_neg Bool.false_ne_true]
    exact List.mem_singleton.mpr rfl
  · intro data ed
    constructor
    · intro hmem
      rw [herr] at hmem
      obtain ⟨g, hg, hge⟩ := List.mem_flatMap.mp hmem
      have hgf : g = f := hsame data true g _ hg hge rfl
      subst hgf
      unfold fieldCheck at hge
      rw [if_neg (by simp [hgen])] at hge
      by_cases h2 : (g.required && isMissingOrEmpty (jsIndex data g.name)) = true
      · rw [if_pos h2] at hge
        rw [if_pos rfl] at hge
        by_cases h4 : hasOwn data g.name = true
        · refine ⟨h4, ?_⟩
          rw [hreq] at h2
          simpa using h2
        · rw [if_neg h4] at hge
          cases hge
      · rw [if_neg h2] at hge
        by_cases h5 : isMissing (jsIndex data g.name) = true
        · rw [if_pos h5] at hge
          cases hge
        · rw [if_neg h5] at hge
          exact absurd rfl (typeCheck_ne_rne _ _ _ hge)
    · rintro ⟨hown, hmiss⟩
      rw [herr]
      apply List.mem_flatMap.mpr
      refine ⟨f, hf, ?_⟩
      unfold fieldCheck
      rw [if_neg (by simp [hgen])]
      rw [if_pos (by rw [hreq, hmiss]; rfl)]
      rw [if_pos rfl, if_pos hown]
      exact List.mem_singleton.mpr rfl
  · intro data ed hnone e hmem hef
    rw [herr] at hmem
    obtain ⟨g, hg, hge⟩ := List.mem_flatMap.mp hmem
    have hgf : g = f := hsame data true g e hg hge hef
    subst hgf
    have hidx : jsIndex data g.name = Value.vUndef := by
      simp [jsIndex, hnone]
    have hown : hasOwn data g.name = false :=
      (lookupD_none_iff_hasOwn _ _).mp hnone
    unfold fieldCheck at hge
    rw [if_neg (by simp [hgen])] at hge
    rw [hidx] at hge
    rw [if_pos (by rw [hreq]; rfl)] at hge
    rw [if_pos rfl] at hge
    rw [if_neg (by simp [hown])] at hge
    cases hge

/-- The environment `name` field descriptor (spelled out for the C3
witness; definitionally the element of `environmentSchema`). -/
def c3NameField : FieldDef :=
  { name := "name", type := "string", required := true
    , validation := some { minLength := some 1, maxLength := some 200 } }

/-- C3 witness: the environment `name` field — required at creation,
required-not-empty exactly when explicitly cleared in an update, and silent
when omitted from an update. -/
theorem C3_witness :
    getSchema "environment" = some environmentSchema ∧
    c3NameField ∈ dedupByName (allFields environmentSchema) ∧
    c3NameField.required = true ∧
    (c3NameField.generated && c3NameField.editable == some false) = false ∧
    (dedupByName (allFields environmentSchema)).all
      (fun g => g.name == c3NameField.name ||
        !(decide (g.name.data <+: c3NameField.name.data))) = true ∧
    (VError.mk "name" .required ∈
      (validateData "environment" [] false none).errors) ∧
    (VError.mk "name" .requiredNoEmpty ∈
      (validateData "environment" [("name", Value.vStr "")] true none).errors) ∧
    ((validateData "environment" [("status", Value.vStr "draft")] true
        none).errors.all (fun e => e.field != "name") = true) := by
  have hmem : c3NameField ∈ dedupByName (allFields environmentSchema) :=
    .tail _ (.head _)
  have hpath : (dedupByName (allFields environmentSchema)).all
      (fun g => g.name == c3NameField.name ||
        !(decide (g.name.data <+: c3NameField.name.data))) = true := by decide
  have hmain := C3_required_field_enforcement "environment" environmentSchema
    c3NameField rfl hmem rfl rfl hpath
  refine ⟨rfl, hmem, rfl, rfl, hpath, ?_, ?_, ?_⟩
  · exact hmain.1 [] rfl
  · exact (hmain.2.1 [("name", Value.vStr "")] none).mpr ⟨rfl, rfl⟩
  · apply List.all_eq_true.mpr
    intro e he
    exact bne_iff_ne.mpr
      (hmain.2.2 [("status", Value.vStr "draft")] none rfl e he)

/-! ## Idempotence infrastructure (for C9)

`applyDefaults` reads every missing-ness test from the original document and
only ever assigns per-field constants, so one pass is characterised by the
sequence of net per-field writes; idempotence follows from a pointwise
analysis of that sequence. -/

/-- Overwriting the same key twice keeps only the second value. -/
theorem setVal_setVal (d : Doc) (k : String) (a b : Value) :
    setVal (setVal d k a) k b = setVal d k b := by
  induction d with
  | nil => simp [setVal]
  | cons e rest ih =>
      obtain ⟨k1, v⟩ := e
      by_cases h : k1 = k <;> simp [setVal, h, ih]

/-- Lookup after an assignment. -/
theorem lookup_setVal (d : Doc) (k : String) (v : Value) (k1 : String) :
    lookupD (setVal d k v) k1 = if k = k1 then some v else lookupD d k1 := by
  induction d with
  | nil =>
      by_cases h : k = k1 <;> simp [setVal, lookupD, h]
  | cons e rest ih =>
      obtain ⟨k2, w⟩ := e
      simp only [setVal]
      by_cases h2 : k2 = k
      · rw [if_pos h2]
        subst h2
        by_cases h : k2 = k1
        · simp only [lookupD, h, if_true]
        · simp only [lookupD, h, if_false]
      · rw [if_neg h2]
        by_cases h : k2 = k1
        · subst h
          have hswap : ¬k = k2 := fun hh => h2 hh.symm
          simp [lookupD, hswap]
        · simp only [lookupD, h, if_false]
          exact ih

/-- The net value one field's loop iteration writes to its key, given the
original value of that key: the placeholder when required-and-missing with a
placeholder kind, else the declared default when missing, else nothing. -/
def netWrite (f : FieldDef) (v : Value) : Option Value :=
  if isMissing v then
    if f.required && (placeholderFor f.type).isSome then placeholderFor f.type
    else f.default
  else none

/-- One `applyDefaults` iteration equals the net write. -/
theorem adStep_fst (data : Doc) (acc : Doc × Bool) (f : FieldDef) :
    (adStep data acc f).1 =
      match netWrite f (jsIndex data f.name) with
      | some w => setVal acc.1 f.name w
      | none => acc.1 := by
  unfold adStep netWrite
  by_cases hm : isMissing (jsIndex data f.name) = true
  · simp only [hm, if_true]
    by_cases hr : f.required = true
    · simp only [hr, Bool.true_and]
      cases hp : placeholderFor f.type with
      | some p =>
          simp only [hp, Option.isSome_some, if_true]
          cases hd : f.default with
          | some dv => simp [hd, hm, setVal_setVal]
          | none => simp [hd, hm]
      | none =>
          simp only [hp, Option.isSome_none, Bool.false_eq_true, if_false]
          cases hd : f.default with
          | some dv => simp [hd, hm, hr]
          | none => simp [hd, hm, hr]
    · have hr2 : f.required = false := Bool.eq_false_iff.mpr hr
      simp only [hr2, Bool.false_and, Bool.false_eq_true, if_false]
      cases hd : f.default with
      | some dv => simp [hd, hm]
      | none => simp [hd, hm]
  · have hm2 : isMissing (jsIndex data f.name) = false := Bool.eq_false_iff.mpr hm
    simp only [hm2, Bool.false_eq_true, if_false]
    cases hd : f.default with
    | some dv => simp [hd, hm2]
    | none => simp [hd, hm2]

/-- The sequence of net writes one `applyDefaults` pass performs, in loop
order. -/
def netWrites (fs : List FieldDef) (data : Doc) : List (String × Value) :=
  fs.filterMap (fun f => (netWrite f (jsIndex data f.name)).map (fun w => (f.name, w)))

/-- Replaying a write sequence onto a document. -/
def writesFold (W : List (String × Value)) (d : Doc) : Doc :=
  W.foldl (fun acc p => setVal acc p.1 p.2) d

/-- The document component of the `applyDefaults` fold is the replay of its
net writes. -/
theorem adFold_fst (data : Doc) (fs : List FieldDef) :
    ∀ acc : Doc × Bool,
      (fs.foldl (adStep data) acc).1 = writesFold (netWrites fs data) acc.1 := by
  induction fs with
  | nil =>
      intro acc
      rfl
  | cons f rest ih =>
      intro acc
      have hstep := adStep_fst data acc f
      have hnw : netWrites (f :: rest) data =
          (match netWrite f (jsIndex data f.name) with
           | some w => [(f.name, w)]
           | none => []) ++ netWrites rest data := by
        simp only [netWrites, List.filterMap_cons]
        cases netWrite f (jsIndex data f.name) <;> simp
      rw [List.foldl_cons, ih (adStep data acc f), hnw]
      cases hw : netWrite f (jsIndex data f.name) with
      | none =>
          rw [hw] at hstep
          simp only [List.nil_append]
          rw [hstep]
      | some w =>
          rw [hw] at hstep
          simp only [List.singleton_append]
          simp only [writesFold, List.foldl_cons]
          rw [hstep]

/-- `applyDefaults` as a write replay. -/
theorem applyDefaults_fst (data : Doc) (s : SchemaDef) :
    (applyDefaults data s).1 = writesFold (netWrites (allFields s) data) data :=
  adFold_fst data (allFields s) (data, false)

/-- The last write a sequence performs at a key. -/
def lastW : List (String × Value) → String → Option Value
  | [], _ => none
  | (k1, v) :: rest, k =>
      match lastW rest k with
      | some w => some w
      | none => if k1 = k then some v else none

/-- Lookup after replaying a write sequence: the last write at the key, or
the original binding. -/
theorem lookup_writesFold (W : List (String × Value)) (d : Doc) (k : String) :
    lookupD (writesFold W d) k =
      match lastW W k with
      | some w => some w
      | none => lookupD d k := by
  induction W generalizing d with
  | nil => rfl
  | cons p rest ih =>
      obtain ⟨k1, v⟩ := p
      simp only [writesFold, List.foldl_cons, lastW]
      rw [show rest.foldl (fun acc p => setVal acc p.1 p.2) (setVal d k1 v) =
        writesFold rest (setVal d k1 v) from rfl] at *
      rw [ih (setVal d k1 v)]
      cases hl : lastW rest k with
      | some w => rfl
      | none =>
          rw [lookup_setVal]
          by_cases h : k1 = k
          · simp [h]
          · simp [h]

/-- Absent key means not among the keys. -/
theorem lookupD_none_iff (d : Doc) (k : String) :
    lookupD d k = none ↔ k ∉ d.map Prod.fst := by
  induction d with
  | nil => simp [lookupD]
  | cons e rest ih =>
      obtain ⟨k1, v⟩ := e
      by_cases h : k1 = k
      · subst h
        simp [lookupD]
      · simp only [lookupD, h, if_false, List.map_cons, List.mem_cons, ih]
        constructor
        · rintro hnot (h1 | h2)
          · exact h h1.symm
          · exact hnot h2
        · intro hnot h2
          exact hnot (Or.inr h2)

/-- In a duplicate-free document, membership determines lookup. -/
theorem lookup_of_mem_nodup (d : Doc) (k : String) (v : Value)
    (hnodup : (d.map Prod.fst).Nodup) (hmem : (k, v) ∈ d) :
    lookupD d k = some v := by
  induction d with
  | nil => cases hmem
  | cons e rest ih =>
      obtain ⟨k1, w⟩ := e
      simp only [List.map_cons, List.nodup_cons] at hnodup
      rcases List.mem_cons.mp hmem with heq | hmem2
      · cases heq
        simp [lookupD]
      · have hk : k1 ≠ k := by
          intro hh
          subst hh
          exact hnodup.1 (List.mem_map_of_mem Prod.fst hmem2)
        simp only [lookupD, hk, if_false]
        exact ih hnodup.2 hmem2

/-- Assigning an existing key leaves the key list unchanged. -/
theorem keys_setVal_of_mem (d : Doc) (k : String) (v : Value)
    (h : k ∈ d.map Prod.fst) :
    (setVal d k v).map Prod.fst = d.map Prod.fst := by
  induction d with
  | nil => cases h
  | cons e rest ih =>
      obtain ⟨k1, w⟩ := e
      by_cases h1 : k1 = k
      · simp [setVal, h1]
      · simp only [List.map_cons, List.mem_cons] at h
        rcases h with h | h
        · exact absurd h.symm h1
        · simp [setVal, h1, ih h]

/-- Assigning a new key appends it. -/
theorem keys_setVal_not_mem (d : Doc) (k : String) (v : Value)
    (h : k ∉ d.map Prod.fst) :
    (setVal d k v).map Prod.fst = d.map Prod.fst ++ [k] := by
  induction d with
  | nil => simp [setVal]
  | cons e rest ih =>
      obtain ⟨k1, w⟩ := e
      simp only [List.map_cons, List.mem_cons] at h
      push_neg at h
      simp only [setVal]
      rw [if_neg (fun hh => h.1 hh.symm)]
      simp [ih h.2]

/-- Assignment preserves duplicate-freedom of the keys. -/
theorem nodup_setVal (d : Doc) (k : String) (v : Value)
    (h : (d.map Prod.fst).Nodup) : ((setVal d k v).map Prod.fst).Nodup := by
  by_cases hk : k ∈ d.map Prod.fst
  · rw [keys_setVal_of_mem d k v hk]
    exact h
  · rw [keys_setVal_not_mem d k v hk]
    rw [List.nodup_append]
    refine ⟨h, List.nodup_singleton _, ?_⟩
    intro a ha hb
    simp only [List.mem_singleton] at hb
    subst hb
    exact hk ha

/-- Replaying writes preserves duplicate-freedom of the keys. -/
theorem nodup_writesFold (W : List (String × Value)) (d : Doc)
    (h : (d.map Prod.fst).Nodup) : ((writesFold W d).map Prod.fst).Nodup := by
  induction W generalizing d with
  | nil => exact h
  | cons p rest ih =>
      exact ih (setVal d p.1 p.2) (nodup_setVal d p.1 p.2 h)

/-- A performed write's key is among the final keys. -/
theorem lastW_mem (W : List (String × Value)) (k : String) (w : Value)
    (h : lastW W k = some w) : (k, w) ∈ W := by
  induction W with
  | nil => cases h
  | cons p rest ih =>
      obtain ⟨k1, v⟩ := p
      simp only [lastW] at h
      cases hl : lastW rest k with
      | some w2 =>
          rw [hl] at h
          cases h
          exact List.mem_cons_of_mem _ (ih hl)
      | none =>
          rw [hl] at h
          by_cases hk : k1 = k
          · rw [if_pos hk] at h
            cases h
            subst hk
            exact List.mem_cons_self _ _
          · rw [if_neg hk] at h
            cases h

/-- A net write only fires on a missing original value. -/
theorem netWrite_missing (f : FieldDef) (v : Value) (w : Value)
    (h : netWrite f v = some w) : isMissing v = true := by
  unfold netWrite at h
  by_cases hm : isMissing v = true
  · exact hm
  · rw [if_neg hm] at h
    cases h

/-- The net write depends on the original value only through its
missing-ness. -/
theorem netWrite_congr (f : FieldDef) (v v2 : Value)
    (h : isMissing v = isMissing v2) : netWrite f v = netWrite f v2 := by
  unfold netWrite
  rw [h]

/-- Decomposition of a net-write entry. -/
theorem mem_netWrites (fs : List FieldDef) (data : Doc) (p : String × Value)
    (hp : p ∈ netWrites fs data) :
    ∃ f ∈ fs, f.name = p.1 ∧ netWrite f (jsIndex data p.1) = some p.2 := by
  obtain ⟨f, hf, hmap⟩ := List.mem_filterMap.mp hp
  cases hw : netWrite f (jsIndex data f.name) with
  | none =>
      rw [hw] at hmap
      cases hmap
  | some w =>
      rw [hw] at hmap
      simp only [Option.map_some', Option.some_inj] at hmap
      subst hmap
      exact ⟨f, hf, rfl, hw⟩

/-- The last write at a cons whose key differs. -/
theorem lastW_cons_ne (k1 : String) (v : Value) (rest : List (String × Value))
    (k : String) (h : k1 ≠ k) : lastW ((k1, v) :: rest) k = lastW rest k := by
  show (match lastW rest k with
        | some w => some w
        | none => if k1 = k then some v else none) = lastW rest k
  cases lastW rest k with
  | some w => rfl
  | none => simp [h]

/-- The last write at a cons whose key matches. -/
theorem lastW_cons_eq (k : String) (v : Value) (rest : List (String × Value)) :
    lastW ((k, v) :: rest) k =
      match lastW rest k with
      | some w => some w
      | none => some v := by
  show (match lastW rest k with
        | some w => some w
        | none => if k = k then some v else none) =
      match lastW rest k with
      | some w => some w
      | none => some v
  cases lastW rest k with
  | some w => rfl
  | none => simp

/-- The last write at a key is the same for two source documents whose value
at that key has the same missing-ness. -/
theorem lastW_netWrites_congr (fs : List FieldDef) (d1 d2 : Doc) (n : String)
    (h : isMissing (jsIndex d1 n) = isMissing (jsIndex d2 n)) :
    lastW (netWrites fs d1) n = lastW (netWrites fs d2) n := by
  induction fs with
  | nil => rfl
  | cons f rest ih =>
      have hcons : ∀ (data : Doc),
          netWrites (f :: rest) data =
            (match netWrite f (jsIndex data f.name) with
             | some w => [(f.name, w)]
             | none => []) ++ netWrites rest data := by
        intro data
        simp only [netWrites, List.filterMap_cons]
        cases netWrite f (jsIndex data f.name) <;> simp
      rw [hcons d1, hcons d2]
      by_cases hn : f.name = n
      · subst hn
        rw [netWrite_congr f (jsIndex d1 f.name) (jsIndex d2 f.name) h]
        cases hw : netWrite f (jsIndex d2 f.name) with
        | none =>
            dsimp only
            simp only [List.nil_append]
            exact ih
        | some w =>
            dsimp only
            simp only [List.singleton_append]
            rw [lastW_cons_eq, lastW_cons_eq, ih]
      · cases hw1 : netWrite f (jsIndex d1 f.name) with
        | none =>
            cases hw2 : netWrite f (jsIndex d2 f.name) with
            | none =>
                dsimp only
                simp only [List.nil_append]
                exact ih
            | some w2 =>
                dsimp only
                simp only [List.nil_append, List.singleton_append]
                rw [lastW_cons_ne _ _ _ _ hn]
                exact ih
        | some w1 =>
            cases hw2 : netWrite f (jsIndex d2 f.name) with
            | none =>
                dsimp only
                simp only [List.nil_append, List.singleton_append]
                rw [lastW_cons_ne _ _ _ _ hn]
                exact ih
            | some w2 =>
                dsimp only
                simp only [List.singleton_append]
                rw [lastW_cons_ne _ _ _ _ hn, lastW_cons_ne _ _ _ _ hn]
                exact ih

/-- A last write at a key implies the source value there was missing. -/
theorem lastW_netWrites_missing (fs : List FieldDef) (data : Doc) (n : String)
    (w : Value) (h : lastW (netWrites fs data) n = some w) :
    isMissing (jsIndex data n) = true := by
  have hmem := lastW_mem _ _ _ h
  obtain ⟨f, hf, hname, hw⟩ := mem_netWrites fs data (n, w) hmem
  exact netWrite_missing f _ w hw

/-- Mapping each entry to its own key with an entry-wise identity value map
is the identity. -/
theorem map_entries_id (l : Doc) (g : String × Value → Value)
    (h : ∀ e ∈ l, g e = e.2) : l.map (fun e => (e.1, g e)) = l := by
  induction l with
  | nil => rfl
  | cons e rest ih =>
      simp only [List.map_cons]
      rw [h e (List.mem_cons_self _ _)]
      rw [ih (fun x hx => h x (List.mem_cons_of_mem _ hx))]

/-- On a duplicate-free document, assigning an existing key is the entry-wise
conditional replacement. -/
theorem setVal_eq_map_of_mem_nodup (d : Doc) (k : String) (v : Value)
    (hnodup : (d.map Prod.fst).Nodup) (hk : k ∈ d.map Prod.fst) :
    setVal d k v = d.map (fun e => (e.1, if e.1 = k then v else e.2)) := by
  induction d with
  | nil => cases hk
  | cons e rest ih =>
      obtain ⟨k1, w⟩ := e
      simp only [List.map_cons, List.nodup_cons] at hnodup
      simp only [setVal, List.map_cons]
      by_cases h : k1 = k
      · rw [if_pos h]
        subst h
        simp only [if_pos rfl]
        congr 1
        symm
        apply map_entries_id rest (fun e => if e.1 = k1 then v else e.2)
        intro x hx
        have hne : x.1 ≠ k1 := by
          intro hh
          exact hnodup.1 (hh ▸ List.mem_map_of_mem Prod.fst hx)
        simp [hne]
      · rw [if_neg h]
        simp only [h, if_false]
        simp only [List.map_cons, List.mem_cons] at hk
        rcases hk with hk | hk
        · exact absurd hk.symm h
        · rw [ih hnodup.2 hk]

/-- Replaying writes that all target existing keys of a duplicate-free
document rewrites each entry to the last write at its key. -/
theorem writesFold_map (W : List (String × Value)) :
    ∀ (d : Doc), (d.map Prod.fst).Nodup → (∀ p ∈ W, p.1 ∈ d.map Prod.fst) →
      writesFold W d =
        d.map (fun e => (e.1,
          match lastW W e.1 with
          | some w => w
          | none => e.2)) := by
  induction W with
  | nil =>
      intro d hnodup hkeys
      show d = _
      symm
      exact map_entries_id d _ (fun e he => rfl)
  | cons p rest ih =>
      intro d hnodup hkeys
      obtain ⟨k, v⟩ := p
      show writesFold rest (setVal d k v) = _
      have hk : k ∈ d.map Prod.fst := hkeys (k, v) (List.mem_cons_self _ _)
      rw [setVal_eq_map_of_mem_nodup d k v hnodup hk]
      have hkeys1 : (d.map (fun e => (e.1, if e.1 = k then v else e.2))).map
          Prod.fst = d.map Prod.fst := by
        rw [List.map_map]
        apply List.map_congr_left
        intro a ha
        rfl
      rw [ih (d.map (fun e => (e.1, if e.1 = k then v else e.2)))
        (by rw [hkeys1]; exact hnodup)
        (fun q hq => by
          rw [hkeys1]
          exact hkeys q (List.mem_cons_of_mem _ hq))]
      rw [List.map_map]
      apply List.map_congr_left
      intro e he
      simp only [Function.comp]
      cases hlw : lastW rest e.1 with
      | some w =>
          have hcons : lastW ((k, v) :: rest) e.1 = some w := by
            show (match lastW rest e.1 with
                  | some w => some w
                  | none => if k = e.1 then some v else none) = some w
            rw [hlw]
          rw [hcons]
      | none =>
          have hcons : lastW ((k, v) :: rest) e.1 =
              if k = e.1 then some v else none := by
            show (match lastW rest e.1 with
                  | some w => some w
                  | none => if k = e.1 then some v else none) = _
            rw [hlw]
          rw [hcons]
          by_cases hek : e.1 = k
          · simp [hek]
          · have hk2 : ¬k = e.1 := fun hh => hek hh.symm
            simp [hek, hk2]

/-- A write that fires also fires from the matching field list entry. -/
theorem netWrites_mem_of (fs : List FieldDef) (data : Doc) (f : FieldDef)
    (w : Value) (hf : f ∈ fs)
    (hw : netWrite f (jsIndex data f.name) = some w) :
    (f.name, w) ∈ netWrites fs data := by
  apply List.mem_filterMap.mpr
  refine ⟨f, hf, ?_⟩
  rw [hw]
  rfl

/-- If a key was written, the last write at it exists. -/
theorem lastW_isSome_of_mem (W : List (String × Value)) (k : String) (w : Value)
    (h : (k, w) ∈ W) : (lastW W k).isSome = true := by
  induction W with
  | nil => cases h
  | cons p rest ih =>
      obtain ⟨k1, v⟩ := p
      show (match lastW rest k with
            | some w => some w
            | none => if k1 = k then some v else none).isSome = true
      rcases List.mem_cons.mp h with heq | hmem
      · cases heq
        cases hl : lastW rest k with
        | some w2 => rfl
        | none => simp
      · have := ih hmem
        cases hl : lastW rest k with
        | some w2 => rfl
        | none =>
            rw [hl] at this
            cases this

/-! ## Claim C9 -/

/-- C9: `applyDefaults` is idempotent on the updated document it produces —
for every schema and every (JS-representable, duplicate-free-keyed) document
`d`, re-applying it to the updated document returns that document
unchanged. -/
theorem C9_applyDefaults_idempotent (d : Doc) (s : SchemaDef)
    (hnodup : (d.map Prod.fst).Nodup) :
    (applyDefaults (applyDefaults d s).1 s).1 = (applyDefaults d s).1 := by
  have hu1 : (applyDefaults d s).1 = writesFold (netWrites (allFields s) d) d :=
    applyDefaults_fst d s
  have hnodup1 : (((applyDefaults d s).1).map Prod.fst).Nodup := by
    rw [hu1]
    exact nodup_writesFold _ _ hnodup
  have hpoint : ∀ (n : String) (w : Value),
      lastW (netWrites (allFields s) (applyDefaults d s).1) n = some w →
      lookupD (applyDefaults d s).1 n = some w := by
    intro n w hl
    have hmiss1 : isMissing (jsIndex (applyDefaults d s).1 n) = true :=
      lastW_netWrites_missing _ _ _ _ hl
    cases hlk : lookupD (applyDefaults d s).1 n with
    | none =>
        exfalso
        have h2 : (match lastW (netWrites (allFields s) d) n with
                   | some w => some w
                   | none => lookupD d n) = none := by
          rw [← lookup_writesFold, ← hu1]
          exact hlk
        cases hl1 : lastW (netWrites (allFields s) d) n with
        | some w1 =>
            rw [hl1] at h2
            cases h2
        | none =>
            rw [hl1] at h2
            have h3 : lookupD d n = none := h2
            have hd : jsIndex d n = Value.vUndef := by simp [jsIndex, h3]
            have hu : jsIndex (applyDefaults d s).1 n = Value.vUndef := by
              simp [jsIndex, hlk]
            have hcong := lastW_netWrites_congr (allFields s)
              ((applyDefaults d s).1) d n (by rw [hd, hu])
            rw [hcong, hl1] at hl
            cases hl
    | some x =>
        have h2 : (match lastW (netWrites (allFields s) d) n with
                   | some w => some w
                   | none => lookupD d n) = some x := by
          rw [← lookup_writesFold, ← hu1]
          exact hlk
        cases hl1 : lastW (netWrites (allFields s) d) n with
        | none =>
            exfalso
            rw [hl1] at h2
            have h3 : lookupD d n = some x := h2
            have hd : jsIndex d n = x := by simp [jsIndex, h3]
            have hu : jsIndex (applyDefaults d s).1 n = x := by
              simp [jsIndex, hlk]
            have hcong := lastW_netWrites_congr (allFields s)
              ((applyDefaults d s).1) d n (by rw [hd, hu])
            rw [hcong, hl1] at hl
            cases hl
        | some w1 =>
            rw [hl1] at h2
            have hx : w1 = x := Option.some_inj.mp h2
            have hmd : isMissing (jsIndex d n) = true :=
              lastW_netWrites_missing _ _ _ _ hl1
            have hcong := lastW_netWrites_congr (allFields s)
              ((applyDefaults d s).1) d n (by rw [hmd, hmiss1])
            rw [hcong, hl1] at hl
            have hwx : w1 = w := Option.some_inj.mp hl
            rw [← hx, hwx]
  have hkeys : ∀ p ∈ netWrites (allFields s) (applyDefaults d s).1,
      p.1 ∈ ((applyDefaults d s).1).map Prod.fst := by
    intro p hp
    obtain ⟨f, hf, hname, hw⟩ := mem_netWrites _ _ p hp
    by_cases hmem : p.1 ∈ ((applyDefaults d s).1).map Prod.fst
    · exact hmem
    · exfalso
      have hlkn : lookupD (applyDefaults d s).1 p.1 = none :=
        (lookupD_none_iff _ _).mpr hmem
      have h2 : (match lastW (netWrites (allFields s) d) p.1 with
                 | some w => some w
                 | none => lookupD d p.1) = none := by
        rw [← lookup_writesFold, ← hu1]
        exact hlkn
      cases hl1 : lastW (netWrites (allFields s) d) p.1 with
      | some w1 =>
          rw [hl1] at h2
          cases h2
      | none =>
          rw [hl1] at h2
          have h3 : lookupD d p.1 = none := h2
          have hd : jsIndex d p.1 = Value.vUndef := by simp [jsIndex, h3]
          have hu : jsIndex (applyDefaults d s).1 p.1 = Value.vUndef := by
            simp [jsIndex, hlkn]
          have hw1 : netWrite f (jsIndex d p.1) = some p.2 := by
            rw [netWrite_congr f (jsIndex d p.1)
              (jsIndex (applyDefaults d s).1 p.1) (by rw [hd, hu])]
            exact hw
          have hmem1 : (p.1, p.2) ∈ netWrites (allFields s) d := by
            have := netWrites_mem_of (allFields s) d f p.2 hf
              (by rw [hname]; exact hw1)
            rw [hname] at this
            exact this
          have hsome := lastW_isSome_of_mem _ _ _ hmem1
          rw [hl1] at hsome
          cases hsome
  rw [applyDefaults_fst ((applyDefaults d s).1) s]
  rw [writesFold_map (netWrites (allFields s) (applyDefaults d s).1)
    ((applyDefaults d s).1) hnodup1 hkeys]
  apply map_entries_id ((applyDefaults d s).1)
    (fun e =>
      match lastW (netWrites (allFields s) (applyDefaults d s).1) e.1 with
      | some w => w
      | none => e.2)
  intro e he
  cases hlw : lastW (netWrites (allFields s) (applyDefaults d s).1) e.1 with
  | none => rfl
  | some w =>
      have hlk := hpoint e.1 w hlw
      have hmem : lookupD (applyDefaults d s).1 e.1 = some e.2 := by
        apply lookup_of_mem_nodup _ _ _ hnodup1
        simpa using he
      show w = e.2
      exact Option.some_inj.mp (hlk.symm.trans hmem)

/-- C9 witness: a concrete character document with duplicate-free keys. -/
theorem C9_witness :
    (([("name", Value.vStr "Bob"), ("age", Value.vNum 30)] : Doc).map
      Prod.fst).Nodup ∧
    (applyDefaults
        (applyDefaults [("name", Value.vStr "Bob"), ("age", Value.vNum 30)]
          characterSchema).1 characterSchema).1 =
      (applyDefaults [("name", Value.vStr "Bob"), ("age", Value.vNum 30)]
        characterSchema).1 :=
  ⟨by decide,
   C9_applyDefaults_idempotent
     [("name", Value.vStr "Bob"), ("age", Value.vNum 30)] characterSchema
     (by decide)⟩

/-- C6 witness: the paging contrast at a concrete one-document log
collection and the concrete three-document store. -/
theorem C6_witness :
    (resetAnalyticsLoop [("l1", [("ip", Value.vStr "x")])]).1.all
        (fun q => q == some 500) = true ∧
    (resetAnalyticsLoop [("l1", [("ip", Value.vStr "x")])]).2 = 1 ∧
    (migrateCollectionFetch c6Store "characters" none).limit = none := by
  have h := C6_bulk_paging [("l1", [("ip", Value.vStr "x")])] c6Store
    "characters" none
  refine ⟨?_, h.1.2, h.2.1⟩
  apply List.all_eq_true.mpr
  intro q hq
  rw [h.1.1 q hq]
  rfl
